import Mathlib

/-!
# go-form-it: the FieldSet object model (`fieldset.go`)

A shallow embedding of `FieldSetType`, its constructor `FieldSet` and its methods,
followed by theorems about the embedded code.

Conventions of the embedding.

* A Go `map[string]V` is a partial function from keys to values (`GoMap V`);
  `m[k] = v` is `GoMap.set`, `delete(m, k)` is `GoMap.delete`, and the two-valued
  read `v, ok := m[k]` is application (`none` when `ok` is false).  Two maps with the
  same entries are equal, as in Go, where a map has no observable order.
* A `map[string]struct{}` is a `GoMap Unit`: only the presence of a key matters.
* A pointer-receiver method that assigns to the receiver is a function returning the
  new receiver state; a method that only reads is a function of the state.
* A run-time panic is the `error` branch of `Except`.
* The state type describes a `FieldSetType` whose maps have been allocated, which is
  what the constructor `FieldSet` returns.
* Where the identity of the receiver matters, the objects live in a `Store` and a
  method takes and returns a pointer (`Store.AddClass` and the like).
* Where a nil map matters, `RawFieldSetType` keeps each map as nil or allocated, and
  its methods return the panic of an assignment to an entry of a nil map.
* Where state left behind by a call matters, `World.Render` runs `Render` statement by
  statement in a memory of fieldset objects and `bytes.Buffer` objects.
-/

namespace FormIt

/-! ## Go maps -/

/-- A Go map with string keys, as a partial function. -/
def GoMap (V : Type) : Type := String → Option V

namespace GoMap

/-- The map literal with no entries. -/
def empty {V : Type} : GoMap V := fun _ => none

/-- The assignment `m[k] = v`. -/
def set {V : Type} (m : GoMap V) (k : String) (v : V) : GoMap V :=
  fun q => if q = k then some v else m q

/-- The builtin `delete(m, k)`. -/
def delete {V : Type} (m : GoMap V) (k : String) : GoMap V :=
  fun q => if q = k then none else m q

/-- The read `v, ok := m[k]`. -/
def get {V : Type} (m : GoMap V) (k : String) : Option V := m k

/-- Whether `k` is a key of `m`. -/
def has {V : Type} (m : GoMap V) (k : String) : Bool := (m k).isSome

/-- The keys of a map, as a set of strings. -/
def keys {V : Type} (m : GoMap V) : Set String := fun k => m.has k = true

end GoMap

/-! ## Fields (package `fields`, an external collaborator) -/

/-- Modelled from the spec: the field capability `fields.FieldInterface`, whose package
is not among the sources.  The fieldset consumes a field only through `Name()`; `payload`
stands for everything else a field object carries, so that two different fields can have
the same name. -/
structure FieldInterface where
  /-- What `Name()` returns. -/
  name : String
  /-- The remaining content of the field object. -/
  payload : Nat
  deriving DecidableEq, Repr

/-- The method `Name()` of a field. -/
def FieldInterface.Name (e : FieldInterface) : String := e.name

/-- Modelled from the spec: the zero value `&fields.Field{}` that `Field` returns for a
missing name, "a zero-value/empty field object", recognisable by its empty name. -/
def emptyField : FieldInterface := { name := "", payload := 0 }

/-! ## The FieldSet state -/

/-- The struct `FieldSetType`. -/
structure FieldSetType where
  name : String
  class_ : GoMap Unit
  tags : GoMap Unit
  params : GoMap String
  fields : List FieldInterface
  fieldMap : GoMap Nat
  css : GoMap String
  id : String

/-- The loop `for i, elem := range elems { ret.fieldMap[elem.Name()] = i }` of the
constructor, started at index `i` with the map `m`. -/
def FieldSet.loop : List FieldInterface → Nat → GoMap Nat → GoMap Nat
  | [], _, m => m
  | elem :: rest, i, m => FieldSet.loop rest (i + 1) (m.set elem.Name i)

/-- The constructor `FieldSet(name, elems...)`. -/
def FieldSet (name : String) (elems : List FieldInterface) : FieldSetType :=
  { name := name
    class_ := GoMap.empty
    tags := GoMap.empty
    fields := elems
    fieldMap := FieldSet.loop elems 0 GoMap.empty
    css := GoMap.empty
    params := GoMap.empty
    id := "" }

/-- The run-time panics of this file's code. -/
inductive Panic where
  /-- The slice index `f.fields[ind]` with `ind` not below the length. -/
  | indexOutOfRange (ind len : Nat)
  /-- The error passed to `panic(err)` by `Render`, or raised by `template.Must`. -/
  | templateError (err : String)
  /-- The assignment `m[k] = v` to a map that is nil. -/
  | assignNilMap
  deriving DecidableEq, Repr

namespace FieldSetType

/-- The method `FieldSetFromInstance(elem)`: `f.fields = append(f.fields, elem)`. -/
def FieldSetFromInstance (f : FieldSetType) (elem : FieldInterface) : FieldSetType :=
  { f with fields := f.fields ++ [elem] }

/-- The method `SetParam(key, value)`. -/
def SetParam (f : FieldSetType) (key value : String) : FieldSetType :=
  { f with params := f.params.set key value }

/-- The method `Field(name)`: the map read, the early return of the empty field when
the name is missing, and the slice index `f.fields[ind]`, which panics out of range. -/
def Field (f : FieldSetType) (name : String) : Except Panic FieldInterface :=
  match f.fieldMap.get name with
  | none => Except.ok emptyField
  | some ind =>
    match f.fields[ind]? with
    | some e => Except.ok e
    | none => Except.error (Panic.indexOutOfRange ind f.fields.length)

/-- The method `Fields()`. -/
def Fields (f : FieldSetType) : List FieldInterface := f.fields

/-- The method `Name()`. -/
def Name (f : FieldSetType) : String := f.name

/-- The method `AddClass(class)`. -/
def AddClass (f : FieldSetType) (c : String) : FieldSetType :=
  { f with class_ := f.class_.set c () }

/-- The method `SetId(id)`. -/
def SetId (f : FieldSetType) (id : String) : FieldSetType :=
  { f with id := id }

/-- The method `RemoveClass(class)`. -/
def RemoveClass (f : FieldSetType) (c : String) : FieldSetType :=
  { f with class_ := f.class_.delete c }

/-- The method `AddCss(key, value)`. -/
def AddCss (f : FieldSetType) (key value : String) : FieldSetType :=
  { f with css := f.css.set key value }

/-- The method `RemoveCss(key)`. -/
def RemoveCss (f : FieldSetType) (key : String) : FieldSetType :=
  { f with css := f.css.delete key }

/-- The method `AddTag(tag)`. -/
def AddTag (f : FieldSetType) (tag : String) : FieldSetType :=
  { f with tags := f.tags.set tag () }

/-- The method `RemoveTag(tag)`. -/
def RemoveTag (f : FieldSetType) (tag : String) : FieldSetType :=
  { f with tags := f.tags.delete tag }

/-- The method `Disable()`: it calls `f.AddTag("disabled")`. -/
def Disable (f : FieldSetType) : FieldSetType := f.AddTag "disabled"

/-- The method `Enable()`: it calls `f.RemoveTag("disabled")`. -/
def Enable (f : FieldSetType) : FieldSetType := f.RemoveTag "disabled"

end FieldSetType

/-! ## Rendering -/

/-- The values stored in the data context `map[string]interface{}` of `Render`. -/
inductive Value where
  | fieldSeq (fs : List FieldInterface)
  | stringSet (m : GoMap Unit)
  | stringMap (m : GoMap String)
  | str (s : String)

/-- A parsed template, given by what `Execute(buf, data)` does: the text it writes to
the buffer and the error it returns, if any. -/
structure Template where
  Execute : GoMap Value → String × Option String

/-- The collaborators of `Render` that live outside `fieldset.go`: the path resolver
`formcommon.CreateUrl` and the template loader `template.ParseFiles`. -/
structure TemplateEnv where
  CreateUrl : String → String
  ParseFiles : String → Except String Template

/-- The data context built by `Render`: the map literal with its six entries. -/
def FieldSetType.renderData (f : FieldSetType) : GoMap Value :=
  (((((GoMap.empty.set "fields" (Value.fieldSeq f.fields)).set
    "classes" (Value.stringSet f.class_)).set
    "tags" (Value.stringSet f.tags)).set
    "css" (Value.stringMap f.css)).set
    "id" (Value.str f.id)).set
    "params" (Value.stringMap f.params)

/-- The method `Render()`: `template.Must` panics when parsing fails, `panic(err)` when
execution fails; otherwise the content of the buffer is returned. -/
def FieldSetType.Render (env : TemplateEnv) (f : FieldSetType) : Except Panic String :=
  match env.ParseFiles (env.CreateUrl "templates/fieldset.html") with
  | Except.error err => Except.error (Panic.templateError err)
  | Except.ok t =>
    match t.Execute f.renderData with
    | (_, some err) => Except.error (Panic.templateError err)
    | (out, none) => Except.ok out

/-! ## Sequences of method calls -/

/-- A call of one of the methods of `FieldSetType`, with its arguments. -/
inductive Call where
  | FieldSetFromInstance (elem : FieldInterface)
  | SetParam (key value : String)
  | Field (name : String)
  | Fields
  | Name
  | AddClass (c : String)
  | SetId (id : String)
  | RemoveClass (c : String)
  | AddCss (key value : String)
  | RemoveCss (key : String)
  | AddTag (tag : String)
  | RemoveTag (tag : String)
  | Disable
  | Enable
  | Render
  deriving DecidableEq, Repr

/-- The receiver after a call.  `Field`, `Fields`, `Name` and `Render` contain no
assignment to the receiver, so they leave it as it is, also when they panic. -/
def Call.apply (f : FieldSetType) : Call → FieldSetType
  | Call.FieldSetFromInstance elem => f.FieldSetFromInstance elem
  | Call.SetParam key value => f.SetParam key value
  | Call.Field _ => f
  | Call.Fields => f
  | Call.Name => f
  | Call.AddClass c => f.AddClass c
  | Call.SetId id => f.SetId id
  | Call.RemoveClass c => f.RemoveClass c
  | Call.AddCss key value => f.AddCss key value
  | Call.RemoveCss key => f.RemoveCss key
  | Call.AddTag tag => f.AddTag tag
  | Call.RemoveTag tag => f.RemoveTag tag
  | Call.Disable => f.Disable
  | Call.Enable => f.Enable
  | Call.Render => f

/-- The receiver after a sequence of calls, made in order. -/
def run (f : FieldSetType) (calls : List Call) : FieldSetType :=
  calls.foldl Call.apply f

/-! ## Example fields -/

/-- A field named "x". -/
def fieldA : FieldInterface := { name := "x", payload := 1 }

/-- A field named "y". -/
def fieldB : FieldInterface := { name := "y", payload := 2 }

/-- A second field named "x", different from `fieldA`. -/
def fieldC : FieldInterface := { name := "x", payload := 3 }

/-! ## Appended fields -/

/-- The fields appended by a call: one for `FieldSetFromInstance`, none otherwise. -/
def Call.appended : Call → List FieldInterface
  | Call.FieldSetFromInstance elem => [elem]
  | _ => []

/-! ## Metadata as mathematical sets, and the last write of a call sequence -/

/-- The class set of a fieldset: the keys of `class`. -/
def FieldSetType.classSet (f : FieldSetType) : Set String := f.class_.keys

/-- The tag set of a fieldset: the keys of `tags`. -/
def FieldSetType.tagSet (f : FieldSetType) : Set String := f.tags.keys

/-- Written from the spec: what one call does to the class set seen as a mathematical
set, set-insert for `AddClass` and set-delete for `RemoveClass`. -/
def Call.onClassSet (S : Set String) : Call → Set String
  | Call.AddClass c => insert c S
  | Call.RemoveClass c => S \ {c}
  | _ => S

/-- Written from the spec: the mathematical set obtained by applying each add and
remove in order, starting from `S`. -/
def classSetAfter (S : Set String) (calls : List Call) : Set String :=
  calls.foldl Call.onClassSet S

/-- The last value written by a sequence of calls, where `w c` is the value call `c`
writes, if it writes one: the calls after `c` are looked at first. -/
def lastWrite {α : Type} (w : Call → Option α) : List Call → Option α
  | [] => none
  | c :: cs =>
    match lastWrite w cs with
    | some a => some a
    | none => w c

/-- Written from the spec: whether a call mentions tag `t`, and then whether it adds
(`true`) or removes (`false`) it.  `Disable()` and `Enable()` are the calls
`AddTag("disabled")` and `RemoveTag("disabled")` they make. -/
def Call.tagWrite (t : String) : Call → Option Bool
  | Call.AddTag tag => if tag = t then some true else none
  | Call.RemoveTag tag => if tag = t then some false else none
  | Call.Disable => if "disabled" = t then some true else none
  | Call.Enable => if "disabled" = t then some false else none
  | _ => none

/-- Written from the spec: whether a call is on css key `k`, and then the entry it
leaves: `some v` for `AddCss(k, v)`, `none` (absent) for `RemoveCss(k)`. -/
def Call.cssWrite (k : String) : Call → Option (Option String)
  | Call.AddCss key value => if key = k then some (some value) else none
  | Call.RemoveCss key => if key = k then some none else none
  | _ => none

/-- Written from the spec: whether a call is `SetParam(k, v)`, and then the entry
`some v` it leaves. -/
def Call.paramWrite (k : String) : Call → Option (Option String)
  | Call.SetParam key value => if key = k then some (some value) else none
  | _ => none

/-- Written from the spec: the identifier a call sets, for `SetId(id)`. -/
def Call.idWrite : Call → Option String
  | Call.SetId id => some id
  | _ => none

/-! ## Methods on a pointer receiver

Every method has the receiver `f *FieldSetType`.  Here the objects live in a store,
the receiver is an address, and a fluent method returns the store after its writes
together with the pointer of its `return f`. -/

/-- The address of a `FieldSetType` object. -/
abbrev Ptr : Type := Nat

/-- The `FieldSetType` objects in memory, by address. -/
def Store : Type := Ptr → FieldSetType

namespace Store

/-- The store after the object at `p` has been given the value `s`. -/
def write (h : Store) (p : Ptr) (s : FieldSetType) : Store :=
  fun q => if q = p then s else h q

/-- `SetParam` on the receiver `p`: `f.params[key] = value; return f`. -/
def SetParam (h : Store) (p : Ptr) (key value : String) : Store × Ptr :=
  (h.write p ((h p).SetParam key value), p)

/-- `AddClass` on the receiver `p`: `f.class[class] = struct{}{}; return f`. -/
def AddClass (h : Store) (p : Ptr) (c : String) : Store × Ptr :=
  (h.write p ((h p).AddClass c), p)

/-- `SetId` on the receiver `p`: `f.id = id; return f`. -/
def SetId (h : Store) (p : Ptr) (id : String) : Store × Ptr :=
  (h.write p ((h p).SetId id), p)

/-- `RemoveClass` on the receiver `p`: `delete(f.class, class); return f`. -/
def RemoveClass (h : Store) (p : Ptr) (c : String) : Store × Ptr :=
  (h.write p ((h p).RemoveClass c), p)

/-- `AddCss` on the receiver `p`: `f.css[key] = value; return f`. -/
def AddCss (h : Store) (p : Ptr) (key value : String) : Store × Ptr :=
  (h.write p ((h p).AddCss key value), p)

/-- `RemoveCss` on the receiver `p`: `delete(f.css, key); return f`. -/
def RemoveCss (h : Store) (p : Ptr) (key : String) : Store × Ptr :=
  (h.write p ((h p).RemoveCss key), p)

/-- `AddTag` on the receiver `p`: `f.tags[tag] = struct{}{}; return f`. -/
def AddTag (h : Store) (p : Ptr) (tag : String) : Store × Ptr :=
  (h.write p ((h p).AddTag tag), p)

/-- `RemoveTag` on the receiver `p`: `delete(f.tags, tag); return f`. -/
def RemoveTag (h : Store) (p : Ptr) (tag : String) : Store × Ptr :=
  (h.write p ((h p).RemoveTag tag), p)

/-- `Disable` on the receiver `p`: `f.AddTag("disabled")`, whose result is dropped, then
`return f`. -/
def Disable (h : Store) (p : Ptr) : Store × Ptr :=
  ((h.AddTag p "disabled").1, p)

/-- `Enable` on the receiver `p`: `f.RemoveTag("disabled")`, whose result is dropped,
then `return f`. -/
def Enable (h : Store) (p : Ptr) : Store × Ptr :=
  ((h.RemoveTag p "disabled").1, p)

end Store

/-! ## Rendering in a world with buffers

`Render` allocates a `bytes.Buffer`, lets the template write into it and reads it back.
Here the buffers are objects in memory that stay there after the call, next to the
fieldset objects, so that a call of `Render` runs in the world the calls before it have
left. -/

/-- The memory a call of `Render` works in: the fieldset objects and the `bytes.Buffer`
objects allocated so far, a buffer's address being its position. -/
structure World where
  store : Store
  buffers : List String

namespace World

/-- The call `bytes.NewBufferString(s)`: a new buffer holding `s` is allocated, and its
address returned. -/
def NewBufferString (w : World) (s : String) : World × Nat :=
  ({ w with buffers := w.buffers ++ [s] }, w.buffers.length)

/-- The call `buf.String()` on the buffer at address `b`. -/
def bufferString (w : World) (b : Nat) : String := (w.buffers[b]?).getD ""

/-- A write of `text` to the buffer at address `b`: the text is added at its end. -/
def writeString (w : World) (b : Nat) (text : String) : World :=
  { w with buffers := w.buffers.set b (w.bufferString b ++ text) }

/-- The call `t.Execute(buf, data)`: the text the template produces on `data` is written
to the buffer at address `b`, and the error of the execution, if any, is returned. -/
def Execute (w : World) (t : Template) (b : Nat) (data : GoMap Value) :
    World × Option String :=
  (w.writeString b (t.Execute data).1, (t.Execute data).2)

/-- The method `Render()` on the receiver `p`, statement by statement: `var s string`,
`buf := bytes.NewBufferString(s)`, the data context of the object at `p`, the template
loaded with `template.Must(template.ParseFiles(..))`, its `Execute(buf, data)`,
`panic(err)` on an error, and `return template.HTML(buf.String())`.  The result is the
world afterwards with the markup or the panic. -/
def Render (env : TemplateEnv) (w : World) (p : Ptr) : World × Except Panic String :=
  let s := ""
  let w1 := (w.NewBufferString s).1
  let buf := (w.NewBufferString s).2
  let data := (w1.store p).renderData
  match env.ParseFiles (env.CreateUrl "templates/fieldset.html") with
  | Except.error err => (w1, Except.error (Panic.templateError err))
  | Except.ok t =>
    match (w1.Execute t buf data).2 with
    | some err => ((w1.Execute t buf data).1, Except.error (Panic.templateError err))
    | none => ((w1.Execute t buf data).1, Except.ok ((w1.Execute t buf data).1.bufferString buf))

end World

/-- A call of one of the ten fluent mutators, with its arguments. -/
inductive Mutator where
  | AddClass (c : String)
  | RemoveClass (c : String)
  | AddTag (tag : String)
  | RemoveTag (tag : String)
  | AddCss (key value : String)
  | RemoveCss (key : String)
  | SetParam (key value : String)
  | SetId (id : String)
  | Disable
  | Enable
  deriving DecidableEq, Repr

/-- A mutator call as a method call. -/
def Mutator.toCall : Mutator → Call
  | Mutator.AddClass c => Call.AddClass c
  | Mutator.RemoveClass c => Call.RemoveClass c
  | Mutator.AddTag tag => Call.AddTag tag
  | Mutator.RemoveTag tag => Call.RemoveTag tag
  | Mutator.AddCss key value => Call.AddCss key value
  | Mutator.RemoveCss key => Call.RemoveCss key
  | Mutator.SetParam key value => Call.SetParam key value
  | Mutator.SetId id => Call.SetId id
  | Mutator.Disable => Call.Disable
  | Mutator.Enable => Call.Enable

/-- A mutator call on the receiver `p`: the store afterwards and the returned pointer. -/
def Mutator.call (h : Store) (p : Ptr) : Mutator → Store × Ptr
  | Mutator.AddClass c => h.AddClass p c
  | Mutator.RemoveClass c => h.RemoveClass p c
  | Mutator.AddTag tag => h.AddTag p tag
  | Mutator.RemoveTag tag => h.RemoveTag p tag
  | Mutator.AddCss key value => h.AddCss p key value
  | Mutator.RemoveCss key => h.RemoveCss p key
  | Mutator.SetParam key value => h.SetParam p key value
  | Mutator.SetId id => h.SetId p id
  | Mutator.Disable => h.Disable p
  | Mutator.Enable => h.Enable p

/-- The chained call `f.M1(..).M2(..)`: `M2` is called on what `M1` returned. -/
def Mutator.chained (h : Store) (p : Ptr) (m1 m2 : Mutator) : Store × Ptr :=
  m2.call (m1.call h p).1 (m1.call h p).2

/-- The two statements `f.M1(..); f.M2(..)`: `M2` is called on `f` again. -/
def Mutator.inSequence (h : Store) (p : Ptr) (m1 m2 : Mutator) : Store × Ptr :=
  m2.call (m1.call h p).1 p

/-! ## The struct with maps that may be nil

The zero value of `FieldSetType` has nil maps, and Go panics on an assignment to an
entry of a nil map.  This layer keeps that possibility, to show that it does not arise
on the fieldsets the constructor builds. -/

/-- The assignment `m[k] = v` where the map `m` may be nil (`none`): a panic on nil. -/
def GoMap.assignNilable {V : Type} (m : Option (GoMap V)) (k : String) (v : V) :
    Except Panic (Option (GoMap V)) :=
  match m with
  | none => Except.error Panic.assignNilMap
  | some g => Except.ok (some (g.set k v))

/-- The builtin `delete(m, k)` where the map `m` may be nil: nothing is done on nil. -/
def GoMap.deleteNilable {V : Type} (m : Option (GoMap V)) (k : String) :
    Option (GoMap V) :=
  match m with
  | none => none
  | some g => some (g.delete k)

/-- The struct `FieldSetType`, each map being nil (`none`) or allocated. -/
structure RawFieldSetType where
  name : String
  class_ : Option (GoMap Unit)
  tags : Option (GoMap Unit)
  params : Option (GoMap String)
  fields : List FieldInterface
  fieldMap : Option (GoMap Nat)
  css : Option (GoMap String)
  id : String

/-- The zero value `FieldSetType{}`: nil maps, nil slice, empty strings. -/
def RawFieldSetType.zero : RawFieldSetType :=
  { name := "", class_ := none, tags := none, params := none, fields := [],
    fieldMap := none, css := none, id := "" }

/-- The loop of the constructor, on a map that may be nil. -/
def RawFieldSet.loop :
    List FieldInterface → Nat → Option (GoMap Nat) → Except Panic (Option (GoMap Nat))
  | [], _, m => Except.ok m
  | elem :: rest, i, m =>
    match GoMap.assignNilable m elem.Name i with
    | Except.error e => Except.error e
    | Except.ok m1 => RawFieldSet.loop rest (i + 1) m1

/-- The constructor `FieldSet(name, elems...)`: the struct literal with its five map
literals `map[..]..{}`, then the loop. -/
def RawFieldSet (name : String) (elems : List FieldInterface) :
    Except Panic RawFieldSetType :=
  match RawFieldSet.loop elems 0 (some GoMap.empty) with
  | Except.error e => Except.error e
  | Except.ok fm =>
    Except.ok
      { name := name
        class_ := some GoMap.empty
        tags := some GoMap.empty
        fields := elems
        fieldMap := fm
        css := some GoMap.empty
        params := some GoMap.empty
        id := "" }

namespace RawFieldSetType

/-- `FieldSetFromInstance(elem)`; `append` works on a nil slice too. -/
def FieldSetFromInstance (f : RawFieldSetType) (elem : FieldInterface) :
    Except Panic RawFieldSetType :=
  Except.ok { f with fields := f.fields ++ [elem] }

/-- `SetParam(key, value)`: an assignment to an entry of `params`. -/
def SetParam (f : RawFieldSetType) (key value : String) : Except Panic RawFieldSetType :=
  match GoMap.assignNilable f.params key value with
  | Except.error e => Except.error e
  | Except.ok m => Except.ok { f with params := m }

/-- `AddClass(class)`: an assignment to an entry of `class`. -/
def AddClass (f : RawFieldSetType) (c : String) : Except Panic RawFieldSetType :=
  match GoMap.assignNilable f.class_ c () with
  | Except.error e => Except.error e
  | Except.ok m => Except.ok { f with class_ := m }

/-- `SetId(id)`. -/
def SetId (f : RawFieldSetType) (id : String) : Except Panic RawFieldSetType :=
  Except.ok { f with id := id }

/-- `RemoveClass(class)`: a `delete` on `class`. -/
def RemoveClass (f : RawFieldSetType) (c : String) : Except Panic RawFieldSetType :=
  Except.ok { f with class_ := GoMap.deleteNilable f.class_ c }

/-- `AddCss(key, value)`: an assignment to an entry of `css`. -/
def AddCss (f : RawFieldSetType) (key value : String) : Except Panic RawFieldSetType :=
  match GoMap.assignNilable f.css key value with
  | Except.error e => Except.error e
  | Except.ok m => Except.ok { f with css := m }

/-- `RemoveCss(key)`: a `delete` on `css`. -/
def RemoveCss (f : RawFieldSetType) (key : String) : Except Panic RawFieldSetType :=
  Except.ok { f with css := GoMap.deleteNilable f.css key }

/-- `AddTag(tag)`: an assignment to an entry of `tags`. -/
def AddTag (f : RawFieldSetType) (tag : String) : Except Panic RawFieldSetType :=
  match GoMap.assignNilable f.tags tag () with
  | Except.error e => Except.error e
  | Except.ok m => Except.ok { f with tags := m }

/-- `RemoveTag(tag)`: a `delete` on `tags`. -/
def RemoveTag (f : RawFieldSetType) (tag : String) : Except Panic RawFieldSetType :=
  Except.ok { f with tags := GoMap.deleteNilable f.tags tag }

/-- `Disable()`: the call `f.AddTag("disabled")`. -/
def Disable (f : RawFieldSetType) : Except Panic RawFieldSetType := f.AddTag "disabled"

/-- `Enable()`: the call `f.RemoveTag("disabled")`. -/
def Enable (f : RawFieldSetType) : Except Panic RawFieldSetType := f.RemoveTag "disabled"

end RawFieldSetType

/-- A fieldset with allocated maps, as a struct whose maps may be nil. -/
def FieldSetType.toRaw (f : FieldSetType) : RawFieldSetType :=
  { name := f.name
    class_ := some f.class_
    tags := some f.tags
    params := some f.params
    fields := f.fields
    fieldMap := some f.fieldMap
    css := some f.css
    id := f.id }

/-- A mutator call on the struct whose maps may be nil: the struct afterwards, or the
panic. -/
def Mutator.rawCall (f : RawFieldSetType) : Mutator → Except Panic RawFieldSetType
  | Mutator.AddClass c => f.AddClass c
  | Mutator.RemoveClass c => f.RemoveClass c
  | Mutator.AddTag tag => f.AddTag tag
  | Mutator.RemoveTag tag => f.RemoveTag tag
  | Mutator.AddCss key value => f.AddCss key value
  | Mutator.RemoveCss key => f.RemoveCss key
  | Mutator.SetParam key value => f.SetParam key value
  | Mutator.SetId id => f.SetId id
  | Mutator.Disable => f.Disable
  | Mutator.Enable => f.Enable

/-- A step of a fieldset's life after construction: an append or a mutator call. -/
inductive Step where
  | append (elem : FieldInterface)
  | mutate (m : Mutator)
  deriving DecidableEq, Repr

/-- A step as a method call. -/
def Step.toCall : Step → Call
  | Step.append elem => Call.FieldSetFromInstance elem
  | Step.mutate m => m.toCall

/-- A step on the struct whose maps may be nil. -/
def Step.rawCall (f : RawFieldSetType) : Step → Except Panic RawFieldSetType
  | Step.append elem => f.FieldSetFromInstance elem
  | Step.mutate m => m.rawCall f

/-- A sequence of steps on the struct whose maps may be nil, stopping at the first
panic. -/
def rawRun : RawFieldSetType → List Step → Except Panic RawFieldSetType
  | f, [] => Except.ok f
  | f, st :: rest =>
    match st.rawCall f with
    | Except.error e => Except.error e
    | Except.ok g => rawRun g rest

/-! ## Example template resolvers -/

/-- A template that writes the opening tag with the identifier of the data context, and
fails when the data context has no string under "id". -/
def idTemplate : Template :=
  { Execute := fun data =>
      match data "id" with
      | some (Value.str s) => ("<fieldset id=" ++ s ++ ">", none)
      | _ => ("", some "id: not a string") }

/-- A template that fails after it has written part of its text. -/
def failingTemplate : Template :=
  { Execute := fun _ => ("<fieldset", some "execution failed") }

/-- A resolver that finds `idTemplate`. -/
def envOk : TemplateEnv :=
  { CreateUrl := fun u => u, ParseFiles := fun _ => Except.ok idTemplate }

/-- A resolver whose template file is missing. -/
def envMissing : TemplateEnv :=
  { CreateUrl := fun u => u, ParseFiles := fun u => Except.error ("open " ++ u) }

/-- A resolver that finds `failingTemplate`. -/
def envFailing : TemplateEnv :=
  { CreateUrl := fun u => u, ParseFiles := fun _ => Except.ok failingTemplate }

/-! ## Lemmas on maps -/

@[simp]
theorem GoMap.empty_apply {V : Type} (q : String) : (GoMap.empty : GoMap V) q = none := rfl

@[simp]
theorem GoMap.get_eq {V : Type} (m : GoMap V) (q : String) : m.get q = m q := rfl

@[simp]
theorem GoMap.set_self {V : Type} (m : GoMap V) (k : String) (v : V) :
    m.set k v k = some v := by
  simp [GoMap.set]

theorem GoMap.set_of_ne {V : Type} (m : GoMap V) (k q : String) (v : V) (h : q ≠ k) :
    m.set k v q = m q := by
  simp [GoMap.set, h]

@[simp]
theorem GoMap.delete_self {V : Type} (m : GoMap V) (k : String) :
    m.delete k k = none := by
  simp [GoMap.delete]

theorem GoMap.delete_of_ne {V : Type} (m : GoMap V) (k q : String) (h : q ≠ k) :
    m.delete k q = m q := by
  simp [GoMap.delete, h]

theorem GoMap.set_apply {V : Type} (m : GoMap V) (k q : String) (v : V) :
    m.set k v q = if q = k then some v else m q := rfl

theorem GoMap.delete_apply {V : Type} (m : GoMap V) (k q : String) :
    m.delete k q = if q = k then none else m q := rfl

/-- Deleting a key that is not in the map gives the same map. -/
theorem GoMap.delete_absent {V : Type} (m : GoMap V) (k : String) (h : m k = none) :
    m.delete k = m := by
  funext q
  by_cases hq : q = k
  · subst hq
    simp [h]
  · simp [GoMap.delete_of_ne, hq]

/-- Writing the value a key already has gives the same map. -/
theorem GoMap.set_present {V : Type} (m : GoMap V) (k : String) (v : V) (h : m k = some v) :
    m.set k v = m := by
  funext q
  by_cases hq : q = k
  · subst hq
    simp [h]
  · simp [GoMap.set_of_ne, hq]

/-! ## Lemmas on the constructor loop -/

/-- A name carried by no element is left alone by the loop. -/
theorem FieldSet.loop_of_not_mem (elems : List FieldInterface) (i : Nat) (m : GoMap Nat)
    (q : String) (h : q ∉ elems.map FieldInterface.Name) :
    FieldSet.loop elems i m q = m q := by
  induction elems generalizing i m with
  | nil => rfl
  | cons x rest ih =>
    simp only [List.map_cons, List.mem_cons, not_or] at h
    rw [FieldSet.loop, ih (i + 1) _ h.2, GoMap.set_of_ne _ _ _ _ h.1]

/-- A name carried by some element is a key after the loop. -/
theorem FieldSet.loop_of_mem (elems : List FieldInterface) (i : Nat) (m : GoMap Nat)
    (q : String) (h : q ∈ elems.map FieldInterface.Name) :
    ∃ j, FieldSet.loop elems i m q = some j := by
  induction elems generalizing i m with
  | nil => simp at h
  | cons x rest ih =>
    rw [FieldSet.loop]
    by_cases hr : q ∈ rest.map FieldInterface.Name
    · exact ih (i + 1) _ hr
    · have hx : q = x.Name := by
        simp only [List.map_cons, List.mem_cons] at h
        rcases h with h | h
        · exact h
        · exact absurd h hr
      rw [FieldSet.loop_of_not_mem rest (i + 1) _ q hr, hx]
      exact ⟨i, GoMap.set_self _ _ _⟩

/-- Every entry the loop leaves in the map is either an entry of the starting map or
the position (counted from `i`) of an element with that name. -/
theorem FieldSet.loop_entry (elems : List FieldInterface) (i : Nat) (m : GoMap Nat)
    (q : String) (j : Nat) (h : FieldSet.loop elems i m q = some j) :
    m q = some j ∨ ∃ k e, j = i + k ∧ elems[k]? = some e ∧ e.Name = q := by
  induction elems generalizing i m with
  | nil => exact Or.inl h
  | cons x rest ih =>
    rw [FieldSet.loop] at h
    rcases ih (i + 1) _ h with h1 | ⟨k, e, hj, hk, he⟩
    · by_cases hq : q = x.Name
      · subst hq
        rw [GoMap.set_self] at h1
        refine Or.inr ⟨0, x, ?_, by simp, rfl⟩
        simpa using (Option.some.inj h1).symm
      · rw [GoMap.set_of_ne _ _ _ _ hq] at h1
        exact Or.inl h1
    · refine Or.inr ⟨k + 1, e, by omega, ?_, he⟩
      simpa using hk

/-- With pairwise distinct names, the loop maps the name of the element at position
`k` to `i + k`. -/
theorem FieldSet.loop_nodup (elems : List FieldInterface) (i : Nat) (m : GoMap Nat)
    (hnd : (elems.map FieldInterface.Name).Nodup) (k : Nat) (e : FieldInterface)
    (hk : elems[k]? = some e) :
    FieldSet.loop elems i m e.Name = some (i + k) := by
  induction elems generalizing i m k with
  | nil => simp at hk
  | cons x rest ih =>
    rw [List.map_cons, List.nodup_cons] at hnd
    rw [FieldSet.loop]
    cases k with
    | zero =>
      simp only [List.getElem?_cons_zero, Option.some.injEq] at hk
      subst hk
      rw [FieldSet.loop_of_not_mem rest (i + 1) _ _ hnd.1]
      simp
    | succ k =>
      simp only [List.getElem?_cons_succ] at hk
      rw [ih (i + 1) _ hnd.2 k hk]
      congr 1
      omega

/-! ## Lemmas on call sequences -/

@[simp]
theorem run_nil (f : FieldSetType) : run f [] = f := rfl

@[simp]
theorem run_cons (f : FieldSetType) (c : Call) (cs : List Call) :
    run f (c :: cs) = run (Call.apply f c) cs := rfl

theorem run_append (f : FieldSetType) (cs ds : List Call) :
    run f (cs ++ ds) = run (run f cs) ds := by
  simp [run, List.foldl_append]

/-- No call writes `fieldMap`. -/
theorem Call.apply_fieldMap (f : FieldSetType) (c : Call) :
    (Call.apply f c).fieldMap = f.fieldMap := by
  cases c <;> rfl

/-- No sequence of calls writes `fieldMap`. -/
theorem run_fieldMap (f : FieldSetType) (cs : List Call) :
    (run f cs).fieldMap = f.fieldMap := by
  induction cs generalizing f with
  | nil => rfl
  | cons c cs ih => rw [run_cons, ih, Call.apply_fieldMap]

theorem Call.apply_fields (f : FieldSetType) (c : Call) :
    (Call.apply f c).fields = f.fields ++ c.appended := by
  cases c <;> simp [Call.apply, Call.appended, FieldSetType.FieldSetFromInstance,
    FieldSetType.SetParam, FieldSetType.AddClass, FieldSetType.SetId,
    FieldSetType.RemoveClass, FieldSetType.AddCss, FieldSetType.RemoveCss,
    FieldSetType.AddTag, FieldSetType.RemoveTag, FieldSetType.Disable,
    FieldSetType.Enable]

theorem run_fields (f : FieldSetType) (cs : List Call) :
    (run f cs).fields = f.fields ++ cs.flatMap Call.appended := by
  induction cs generalizing f with
  | nil => simp
  | cons c cs ih => rw [run_cons, ih, Call.apply_fields, List.flatMap_cons, List.append_assoc]

theorem GoMap.mem_keys {V : Type} (m : GoMap V) (k : String) :
    k ∈ m.keys ↔ m k ≠ none := by
  show (m k).isSome = true ↔ m k ≠ none
  cases m k <;> simp

theorem GoMap.keys_set {V : Type} (m : GoMap V) (k : String) (v : V) :
    (m.set k v).keys = insert k m.keys := by
  ext q
  rw [Set.mem_insert_iff, GoMap.mem_keys, GoMap.mem_keys, GoMap.set_apply]
  by_cases hq : q = k <;> simp [hq]

theorem GoMap.keys_delete {V : Type} (m : GoMap V) (k : String) :
    (m.delete k).keys = m.keys \ {k} := by
  ext q
  rw [Set.mem_diff, Set.mem_singleton_iff, GoMap.mem_keys, GoMap.mem_keys,
    GoMap.delete_apply]
  by_cases hq : q = k <;> simp [hq]

/-- A key of a `map[string]struct{}` holds the only value of `struct{}`. -/
theorem GoMap.unit_of_mem (m : GoMap Unit) (k : String) (h : k ∈ m.keys) :
    m k = some () := by
  rw [GoMap.mem_keys] at h
  cases hk : m k with
  | none => exact absurd hk h
  | some u => rfl

theorem GoMap.none_of_not_mem {V : Type} (m : GoMap V) (k : String) (h : k ∉ m.keys) :
    m k = none := by
  rw [GoMap.mem_keys] at h
  exact not_not.mp h

/-- If each call changes an observation `obs` of the state to the value it writes, or
leaves it when it writes none, then after a sequence of calls the observation is the
last value written, or the initial one when no call wrote. -/
theorem run_lastWrite {β : Type} (obs : FieldSetType → β) (w : Call → Option β)
    (hw : ∀ f c, obs (Call.apply f c) = (w c).getD (obs f))
    (f : FieldSetType) (calls : List Call) :
    obs (run f calls) = (lastWrite w calls).getD (obs f) := by
  induction calls generalizing f with
  | nil => rfl
  | cons c cs ih =>
    rw [run_cons, ih, hw, lastWrite]
    cases lastWrite w cs <;> rfl

/-! ## Lemmas on single calls and on the last write -/

/-- A sequence in which no call writes has no last write. -/
theorem lastWrite_of_forall_none {α : Type} (w : Call → Option α) (calls : List Call)
    (h : ∀ c ∈ calls, w c = none) : lastWrite w calls = none := by
  induction calls with
  | nil => rfl
  | cons c cs ih =>
    rw [lastWrite, ih (fun d hd => h d (List.mem_cons_of_mem c hd))]
    exact h c (List.mem_cons_self c cs)

/-- The last write of `pre ++ c :: post` is that of `c`, when `c` writes and no call of
`post` does. -/
theorem lastWrite_append_cons {α : Type} (w : Call → Option α) (pre post : List Call)
    (c : Call) (a : α) (hc : w c = some a) (hpost : ∀ d ∈ post, w d = none) :
    lastWrite w (pre ++ c :: post) = some a := by
  induction pre with
  | nil =>
    rw [List.nil_append, lastWrite, lastWrite_of_forall_none w post hpost]
    exact hc
  | cons p ps ih =>
    rw [List.cons_append, lastWrite, ih]

/-- The class set after one call is the call's effect on the class set. -/
theorem Call.apply_classSet (f : FieldSetType) (c : Call) :
    (Call.apply f c).classSet = Call.onClassSet f.classSet c := by
  cases c with
  | AddClass c => exact GoMap.keys_set f.class_ c ()
  | RemoveClass c => exact GoMap.keys_delete f.class_ c
  | _ => rfl

/-- The presence of tag `t` after one call. -/
theorem Call.apply_tags_has (t : String) (f : FieldSetType) (c : Call) :
    (Call.apply f c).tags.has t = (Call.tagWrite t c).getD (f.tags.has t) := by
  cases c with
  | AddTag tag =>
    by_cases h : tag = t
    · subst h
      simp [Call.apply, Call.tagWrite, FieldSetType.AddTag, GoMap.has]
    · have h2 : t ≠ tag := fun e => h e.symm
      simp [Call.apply, Call.tagWrite, FieldSetType.AddTag, GoMap.has, h,
        GoMap.set_of_ne _ _ _ _ h2]
  | RemoveTag tag =>
    by_cases h : tag = t
    · subst h
      simp [Call.apply, Call.tagWrite, FieldSetType.RemoveTag, GoMap.has]
    · have h2 : t ≠ tag := fun e => h e.symm
      simp [Call.apply, Call.tagWrite, FieldSetType.RemoveTag, GoMap.has, h,
        GoMap.delete_of_ne _ _ _ h2]
  | Disable =>
    by_cases h : "disabled" = t
    · subst h
      simp [Call.apply, Call.tagWrite, FieldSetType.Disable, FieldSetType.AddTag,
        GoMap.has]
    · have h2 : t ≠ "disabled" := fun e => h e.symm
      simp [Call.apply, Call.tagWrite, FieldSetType.Disable, FieldSetType.AddTag,
        GoMap.has, h, GoMap.set_of_ne _ _ _ _ h2]
  | Enable =>
    by_cases h : "disabled" = t
    · subst h
      simp [Call.apply, Call.tagWrite, FieldSetType.Enable, FieldSetType.RemoveTag,
        GoMap.has]
    · have h2 : t ≠ "disabled" := fun e => h e.symm
      simp [Call.apply, Call.tagWrite, FieldSetType.Enable, FieldSetType.RemoveTag,
        GoMap.has, h, GoMap.delete_of_ne _ _ _ h2]
  | _ => rfl

/-- The css entry of key `k` after one call. -/
theorem Call.apply_css_get (k : String) (f : FieldSetType) (c : Call) :
    (Call.apply f c).css.get k = (Call.cssWrite k c).getD (f.css.get k) := by
  cases c with
  | AddCss key value =>
    by_cases h : key = k
    · subst h
      simp [Call.apply, Call.cssWrite, FieldSetType.AddCss]
    · have h2 : k ≠ key := fun e => h e.symm
      simp [Call.apply, Call.cssWrite, FieldSetType.AddCss, h,
        GoMap.set_of_ne _ _ _ _ h2]
  | RemoveCss key =>
    by_cases h : key = k
    · subst h
      simp [Call.apply, Call.cssWrite, FieldSetType.RemoveCss]
    · have h2 : k ≠ key := fun e => h e.symm
      simp [Call.apply, Call.cssWrite, FieldSetType.RemoveCss, h,
        GoMap.delete_of_ne _ _ _ h2]
  | _ => rfl

/-- The params entry of key `k` after one call. -/
theorem Call.apply_params_get (k : String) (f : FieldSetType) (c : Call) :
    (Call.apply f c).params.get k = (Call.paramWrite k c).getD (f.params.get k) := by
  cases c with
  | SetParam key value =>
    by_cases h : key = k
    · subst h
      simp [Call.apply, Call.paramWrite, FieldSetType.SetParam]
    · have h2 : k ≠ key := fun e => h e.symm
      simp [Call.apply, Call.paramWrite, FieldSetType.SetParam, h,
        GoMap.set_of_ne _ _ _ _ h2]
  | _ => rfl

/-- The identifier after one call. -/
theorem Call.apply_id (f : FieldSetType) (c : Call) :
    (Call.apply f c).id = (Call.idWrite c).getD f.id := by
  cases c <;> rfl

/-- No call writes `name`. -/
theorem Call.apply_name (f : FieldSetType) (c : Call) :
    (Call.apply f c).name = f.name := by
  cases c <;> rfl

/-- No sequence of calls writes `name`. -/
theorem run_name (f : FieldSetType) (cs : List Call) : (run f cs).name = f.name := by
  induction cs generalizing f with
  | nil => rfl
  | cons c cs ih => rw [run_cons, ih, Call.apply_name]

/-- The class set after a sequence of calls. -/
theorem run_classSet (f : FieldSetType) (calls : List Call) :
    (run f calls).classSet = classSetAfter f.classSet calls := by
  induction calls generalizing f with
  | nil => rfl
  | cons c cs ih =>
    rw [run_cons, ih, Call.apply_classSet]
    rfl

/-! ## Theorems -/

/-- C1: for pairwise distinct field names, `Field(fields[i].Name())` on the fieldset built
by `FieldSet(name, fields...)` returns exactly `fields[i]`, for every position `i`. -/
theorem FieldSet_Field_returns_supplied (name : String) (elems : List FieldInterface)
    (hnd : (elems.map FieldInterface.Name).Nodup) (i : Nat) (hi : i < elems.length) :
    (FieldSet name elems).Field (elems[i]).Name = Except.ok elems[i] := by
  have hk : elems[i]? = some elems[i] := List.getElem?_eq_getElem hi
  have hloop := FieldSet.loop_nodup elems 0 GoMap.empty hnd i elems[i] hk
  simp only [FieldSetType.Field, FieldSet, GoMap.get_eq, hloop, Nat.zero_add, hk]

/-- C1, on the example of the spec: `FieldSet("f1", fieldA, fieldB)` with names "x" and
"y" gives `Field("x") = fieldA` and `Field("y") = fieldB`. -/
theorem FieldSet_Field_returns_supplied_witness :
    ([fieldA, fieldB].map FieldInterface.Name).Nodup ∧
    (FieldSet "f1" [fieldA, fieldB]).Field "x" = Except.ok fieldA ∧
    (FieldSet "f1" [fieldA, fieldB]).Field "y" = Except.ok fieldB :=
  ⟨by decide,
   FieldSet_Field_returns_supplied "f1" [fieldA, fieldB] (by decide) 0 (by decide),
   FieldSet_Field_returns_supplied "f1" [fieldA, fieldB] (by decide) 1 (by decide)⟩

/-- C2: the append `FieldSetFromInstance(elem)` does not write `fieldMap`.  On the fieldset
`FieldSet("f1")` followed by `FieldSetFromInstance(fieldA)`, with `fieldA` named "x", the
field is in `Fields()`, the name "x" is not a key of `fieldMap`, and `Field("x")` returns
the empty field instead of `fieldA`. -/
theorem FieldSetFromInstance_omits_fieldMap :
    ((FieldSet "f1" []).FieldSetFromInstance fieldA).Fields = [fieldA] ∧
    ((FieldSet "f1" []).FieldSetFromInstance fieldA).fieldMap.get fieldA.Name = none ∧
    ((FieldSet "f1" []).FieldSetFromInstance fieldA).Field fieldA.Name
      = Except.ok emptyField ∧
    emptyField ≠ fieldA :=
  ⟨rfl, rfl, rfl, by decide⟩

/-- C3: in every state reached from `FieldSet(name, elems...)` by a sequence of calls
(appends, metadata mutators, reads), each entry `(n, i)` of `fieldMap` has
`i < len(fields)` and `fields[i].Name() = n`; hence `Field` never panics on the index
`f.fields[ind]`: it returns a field for every queried name. -/
theorem fieldMap_entries_valid (name : String) (elems : List FieldInterface)
    (calls : List Call) :
    (∀ n i, (run (FieldSet name elems) calls).fieldMap.get n = some i →
      ∃ h : i < (run (FieldSet name elems) calls).fields.length,
        ((run (FieldSet name elems) calls).fields.get ⟨i, h⟩).Name = n) ∧
    (∀ q, ∃ e, (run (FieldSet name elems) calls).Field q = Except.ok e) := by
  have key : ∀ n i, (run (FieldSet name elems) calls).fieldMap.get n = some i →
      ∃ e, (run (FieldSet name elems) calls).fields[i]? = some e ∧ e.Name = n := by
    intro n i h
    rw [GoMap.get_eq, run_fieldMap] at h
    rcases FieldSet.loop_entry elems 0 GoMap.empty n i h with h0 | ⟨k, e, hj, hk, he⟩
    · simp at h0
    · refine ⟨e, ?_, he⟩
      have hik : i = k := by omega
      subst hik
      have hlt : i < elems.length := (List.getElem?_eq_some.mp hk).1
      rw [run_fields]
      show (elems ++ _)[i]? = some e
      rw [List.getElem?_append_left hlt]
      exact hk
  constructor
  · intro n i h
    obtain ⟨e, he, hn⟩ := key n i h
    obtain ⟨hlt, hget⟩ := List.getElem?_eq_some.mp he
    refine ⟨hlt, ?_⟩
    rw [List.get_eq_getElem]
    simpa only [hget] using hn
  · intro q
    cases hq : (run (FieldSet name elems) calls).fieldMap.get q with
    | none => exact ⟨emptyField, by simp only [FieldSetType.Field, hq]⟩
    | some i =>
      obtain ⟨e, he, _⟩ := key q i hq
      exact ⟨e, by simp only [FieldSetType.Field, hq, he]⟩

/-- C3, on an example: after `FieldSet("f1", fieldA, fieldB)`, an append of a second
field named "x" and `AddClass("row")`, the entry for "x" is `0`, a valid index whose
field is named "x". -/
theorem fieldMap_entries_valid_witness :
    (run (FieldSet "f1" [fieldA, fieldB])
      [Call.FieldSetFromInstance fieldC, Call.AddClass "row"]).fieldMap.get "x" = some 0 ∧
    ∃ h : 0 < (run (FieldSet "f1" [fieldA, fieldB])
        [Call.FieldSetFromInstance fieldC, Call.AddClass "row"]).fields.length,
      ((run (FieldSet "f1" [fieldA, fieldB])
        [Call.FieldSetFromInstance fieldC, Call.AddClass "row"]).fields.get ⟨0, h⟩).Name
        = "x" :=
  ⟨rfl, (fieldMap_entries_valid "f1" [fieldA, fieldB]
    [Call.FieldSetFromInstance fieldC, Call.AddClass "row"]).1 "x" 0 rfl⟩

/-- C4: in every state reached from the constructor, `Field(q)` for a name `q` that is
not a key of `fieldMap` does not panic and returns the empty field, whose `Name()` is the
empty string. -/
theorem Field_missing_returns_empty (name : String) (elems : List FieldInterface)
    (calls : List Call) (q : String)
    (h : (run (FieldSet name elems) calls).fieldMap.get q = none) :
    (run (FieldSet name elems) calls).Field q = Except.ok emptyField ∧
    emptyField.Name = "" := by
  refine ⟨?_, rfl⟩
  simp only [FieldSetType.Field, h]

/-- C4, on an example: `Field("nonexistent")` after `FieldSet("f1", fieldA, fieldB)` and
`Disable()`. -/
theorem Field_missing_returns_empty_witness :
    (run (FieldSet "f1" [fieldA, fieldB]) [Call.Disable]).fieldMap.get "nonexistent" = none ∧
    (run (FieldSet "f1" [fieldA, fieldB]) [Call.Disable]).Field "nonexistent"
      = Except.ok emptyField ∧
    emptyField.Name = "" :=
  ⟨by decide, Field_missing_returns_empty "f1" [fieldA, fieldB] [Call.Disable]
    "nonexistent" (by decide)⟩

/-- C5: after `FieldSet(name, es...)` and any sequence of calls, `Fields()` is `es`
followed by the appended fields in call order; one call changes `Fields()` by exactly
the fields it appends (one for `FieldSetFromInstance`, none for any other method). -/
theorem Fields_is_construction_then_appends (name : String) (es : List FieldInterface)
    (calls : List Call) :
    (run (FieldSet name es) calls).Fields = es ++ calls.flatMap Call.appended ∧
    (∀ (f : FieldSetType) (a : FieldInterface),
      (f.FieldSetFromInstance a).Fields = f.Fields ++ [a]) ∧
    (∀ (f : FieldSetType) (c : Call), (Call.apply f c).Fields = f.Fields ++ c.appended) :=
  ⟨run_fields (FieldSet name es) calls, fun _ _ => rfl, Call.apply_fields⟩

/-- C6: for every fieldset and every sequence of calls, the final class set is the
mathematical set obtained by folding set-insert (`AddClass`) and set-delete
(`RemoveClass`) over the calls in order, from the initial class set; `AddClass(c)` with
`c` present and `RemoveClass(c)` with `c` absent leave the fieldset, hence its class set,
as it was. -/
theorem class_set_is_fold_of_calls (f : FieldSetType) (calls : List Call) (c : String) :
    (run f calls).classSet = classSetAfter f.classSet calls ∧
    (c ∈ f.classSet → f.AddClass c = f ∧ (f.AddClass c).classSet = f.classSet) ∧
    (c ∉ f.classSet → f.RemoveClass c = f ∧ (f.RemoveClass c).classSet = f.classSet) := by
  refine ⟨run_classSet f calls, ?_, ?_⟩
  · intro h
    have e : f.AddClass c = f := by
      show { f with class_ := f.class_.set c () } = f
      rw [GoMap.set_present f.class_ c () (GoMap.unit_of_mem f.class_ c h)]
    exact ⟨e, by rw [e]⟩
  · intro h
    have e : f.RemoveClass c = f := by
      show { f with class_ := f.class_.delete c } = f
      rw [GoMap.delete_absent f.class_ c (GoMap.none_of_not_mem f.class_ c h)]
    exact ⟨e, by rw [e]⟩

/-- C6, on an example: on `FieldSet("f1").AddClass("row")`, the class "row" is present
and adding it again changes nothing; "col" is absent and removing it changes nothing. -/
theorem class_set_is_fold_of_calls_witness :
    ("row" ∈ ((FieldSet "f1" []).AddClass "row").classSet ∧
      ((FieldSet "f1" []).AddClass "row").AddClass "row"
        = (FieldSet "f1" []).AddClass "row") ∧
    ("col" ∉ ((FieldSet "f1" []).AddClass "row").classSet ∧
      ((FieldSet "f1" []).AddClass "row").RemoveClass "col"
        = (FieldSet "f1" []).AddClass "row") := by
  have hrow : "row" ∈ ((FieldSet "f1" []).AddClass "row").classSet := by
    show GoMap.has _ "row" = true
    decide
  have hcol : "col" ∉ ((FieldSet "f1" []).AddClass "row").classSet := by
    show ¬ (GoMap.has _ "col" = true)
    decide
  exact ⟨⟨hrow, ((class_set_is_fold_of_calls ((FieldSet "f1" []).AddClass "row")
      [] "row").2.1 hrow).1⟩,
    ⟨hcol, ((class_set_is_fold_of_calls ((FieldSet "f1" []).AddClass "row")
      [] "col").2.2 hcol).1⟩⟩

/-- C7: `AddTag` and `RemoveTag` have set semantics: `AddTag(t)` twice is `AddTag(t)`
once, `RemoveTag(t)` twice is `RemoveTag(t)` once, `AddTag(t)` with `t` present and
`RemoveTag(t)` with `t` absent change nothing, and after any sequence of calls `t` is in
the tag set iff the last call mentioning `t` added it, or no call mentioned `t` and `t`
was present initially. -/
theorem tag_set_semantics (f : FieldSetType) (t : String) (calls : List Call) :
    (f.AddTag t).AddTag t = f.AddTag t ∧
    (f.RemoveTag t).RemoveTag t = f.RemoveTag t ∧
    (t ∈ f.tagSet → f.AddTag t = f) ∧
    (t ∉ f.tagSet → f.RemoveTag t = f) ∧
    (t ∈ (run f calls).tagSet ↔
      lastWrite (Call.tagWrite t) calls = some true ∨
      (lastWrite (Call.tagWrite t) calls = none ∧ t ∈ f.tagSet)) := by
  refine ⟨?_, ?_, ?_, ?_, ?_⟩
  · show { f.AddTag t with tags := (f.AddTag t).tags.set t () } = f.AddTag t
    rw [GoMap.set_present (f.AddTag t).tags t () (GoMap.set_self f.tags t ())]
  · show { f.RemoveTag t with tags := (f.RemoveTag t).tags.delete t } = f.RemoveTag t
    rw [GoMap.delete_absent (f.RemoveTag t).tags t (GoMap.delete_self f.tags t)]
  · intro h
    show { f with tags := f.tags.set t () } = f
    rw [GoMap.set_present f.tags t () (GoMap.unit_of_mem f.tags t h)]
  · intro h
    show { f with tags := f.tags.delete t } = f
    rw [GoMap.delete_absent f.tags t (GoMap.none_of_not_mem f.tags t h)]
  · have hrun := run_lastWrite (fun g => g.tags.has t) (Call.tagWrite t)
      (Call.apply_tags_has t) f calls
    show (run f calls).tags.has t = true ↔ _ ∨ (_ ∧ f.tags.has t = true)
    rw [hrun]
    cases hl : lastWrite (Call.tagWrite t) calls with
    | none => simp
    | some b => cases b <;> simp

/-- C7, on an example: on `FieldSet("f1").AddTag("checked")` the tag "checked" is present
and adding it changes nothing, the tag "hidden" is absent and removing it changes nothing. -/
theorem tag_set_semantics_witness :
    ("checked" ∈ ((FieldSet "f1" []).AddTag "checked").tagSet ∧
      ((FieldSet "f1" []).AddTag "checked").AddTag "checked"
        = (FieldSet "f1" []).AddTag "checked") ∧
    ("hidden" ∉ ((FieldSet "f1" []).AddTag "checked").tagSet ∧
      ((FieldSet "f1" []).AddTag "checked").RemoveTag "hidden"
        = (FieldSet "f1" []).AddTag "checked") := by
  have hin : "checked" ∈ ((FieldSet "f1" []).AddTag "checked").tagSet := by
    show GoMap.has _ "checked" = true
    decide
  have hout : "hidden" ∉ ((FieldSet "f1" []).AddTag "checked").tagSet := by
    show ¬ (GoMap.has _ "hidden" = true)
    decide
  exact ⟨⟨hin, (tag_set_semantics ((FieldSet "f1" []).AddTag "checked")
      "checked" []).2.2.1 hin⟩,
    ⟨hout, (tag_set_semantics ((FieldSet "f1" []).AddTag "checked")
      "hidden" []).2.2.2.1 hout⟩⟩

/-- C8: after any sequence of calls the css entry of key `k` is the one left by the last
call on `k` (the value `v` of an `AddCss(k, v)` that no `RemoveCss(k)` follows, absent
after a last `RemoveCss(k)`), and the initial entry when no call was on `k`; a call on
another key does not change the entry of `k`.  The same holds for `SetParam` on `params`,
and the identifier is the last one given to `SetId`. -/
theorem css_params_id_last_write (f : FieldSetType) (k v id : String)
    (calls pre post : List Call) :
    ((run f calls).css.get k = (lastWrite (Call.cssWrite k) calls).getD (f.css.get k)) ∧
    ((∀ d ∈ post, Call.cssWrite k d = none) →
      (run f (pre ++ Call.AddCss k v :: post)).css.get k = some v) ∧
    ((∀ d ∈ post, Call.cssWrite k d = none) →
      (run f (pre ++ Call.RemoveCss k :: post)).css.get k = none) ∧
    (∀ q w, q ≠ k → (f.AddCss q w).css.get k = f.css.get k ∧
      (f.RemoveCss q).css.get k = f.css.get k) ∧
    ((run f calls).params.get k
      = (lastWrite (Call.paramWrite k) calls).getD (f.params.get k)) ∧
    ((∀ d ∈ post, Call.paramWrite k d = none) →
      (run f (pre ++ Call.SetParam k v :: post)).params.get k = some v) ∧
    (∀ q w, q ≠ k → (f.SetParam q w).params.get k = f.params.get k) ∧
    ((run f calls).id = (lastWrite Call.idWrite calls).getD f.id) ∧
    ((∀ d ∈ post, Call.idWrite d = none) →
      (run f (pre ++ Call.SetId id :: post)).id = id) ∧
    (f.SetId id).id = id := by
  have hcss := run_lastWrite (fun g => g.css.get k) (Call.cssWrite k) (Call.apply_css_get k)
  have hpar := run_lastWrite (fun g => g.params.get k) (Call.paramWrite k)
    (Call.apply_params_get k)
  have hid := run_lastWrite (fun g => g.id) Call.idWrite Call.apply_id
  refine ⟨hcss f calls, ?_, ?_, ?_, hpar f calls, ?_, ?_, hid f calls, ?_, rfl⟩
  · intro hpost
    have hl := lastWrite_append_cons (Call.cssWrite k) pre post (Call.AddCss k v)
      (some v) (by simp [Call.cssWrite]) hpost
    have h := hcss f (pre ++ Call.AddCss k v :: post)
    rw [hl] at h
    exact h
  · intro hpost
    have hl := lastWrite_append_cons (Call.cssWrite k) pre post (Call.RemoveCss k)
      none (by simp [Call.cssWrite]) hpost
    have h := hcss f (pre ++ Call.RemoveCss k :: post)
    rw [hl] at h
    exact h
  · intro q w hq
    have h2 : k ≠ q := fun e => hq e.symm
    exact ⟨GoMap.set_of_ne f.css q k w h2, GoMap.delete_of_ne f.css q k h2⟩
  · intro hpost
    have hl := lastWrite_append_cons (Call.paramWrite k) pre post (Call.SetParam k v)
      (some v) (by simp [Call.paramWrite]) hpost
    have h := hpar f (pre ++ Call.SetParam k v :: post)
    rw [hl] at h
    exact h
  · intro q w hq
    have h2 : k ≠ q := fun e => hq e.symm
    exact GoMap.set_of_ne f.params q k w h2
  · intro hpost
    have hl := lastWrite_append_cons Call.idWrite pre post (Call.SetId id)
      id rfl hpost
    have h := hid f (pre ++ Call.SetId id :: post)
    rw [hl] at h
    exact h

/-- C8, on an example: after `AddCss("width", "1px")`, `AddCss("width", "2px")`,
`AddCss("color", "red")` on `FieldSet("f1")` the entry of "width" is "2px", and with a
`RemoveCss("width")` in place of the second call it is absent; a call on "color" leaves
the entry of "width"; likewise for `SetParam` and `SetId`. -/
theorem css_params_id_last_write_witness :
    (∀ d ∈ [Call.AddCss "color" "red"], Call.cssWrite "width" d = none) ∧
    (run (FieldSet "f1" []) ([Call.AddCss "width" "1px"] ++
      Call.AddCss "width" "2px" :: [Call.AddCss "color" "red"])).css.get "width"
      = some "2px" ∧
    (run (FieldSet "f1" []) ([Call.AddCss "width" "1px"] ++
      Call.RemoveCss "width" :: [Call.AddCss "color" "red"])).css.get "width" = none ∧
    ("color" ≠ "width" ∧
      ((FieldSet "f1" []).AddCss "color" "red").css.get "width"
        = (FieldSet "f1" []).css.get "width") ∧
    (∀ d ∈ [Call.AddCss "color" "red"], Call.paramWrite "width" d = none) ∧
    (run (FieldSet "f1" []) ([Call.AddCss "width" "1px"] ++
      Call.SetParam "width" "2px" :: [Call.AddCss "color" "red"])).params.get "width"
      = some "2px" ∧
    (∀ d ∈ [Call.AddCss "color" "red"], Call.idWrite d = none) ∧
    (run (FieldSet "f1" []) ([Call.AddCss "width" "1px"] ++
      Call.SetId "2px" :: [Call.AddCss "color" "red"])).id = "2px" := by
  have hc : ∀ d ∈ [Call.AddCss "color" "red"], Call.cssWrite "width" d = none := by
    decide
  have hp : ∀ d ∈ [Call.AddCss "color" "red"], Call.paramWrite "width" d = none := by
    decide
  have hi : ∀ d ∈ [Call.AddCss "color" "red"], Call.idWrite d = none := by
    decide
  have hne : "color" ≠ "width" := by decide
  have h := css_params_id_last_write (FieldSet "f1" []) "width" "2px" "2px" []
    [Call.AddCss "width" "1px"] [Call.AddCss "color" "red"]
  exact ⟨hc, h.2.1 hc, h.2.2.1 hc, ⟨hne, (h.2.2.2.1 "color" "red" hne).1⟩, hp,
    h.2.2.2.2.2.1 hp, hi, h.2.2.2.2.2.2.2.2.1 hi⟩

/-- C9: for an arbitrary prior tag set `T`, `Disable()` followed by `Enable()` gives the
tag set `T` minus "disabled": "disabled" is absent and every other tag is kept; and
`Enable()` on a fieldset whose tag set has no "disabled" leaves the whole state as it
was. -/
theorem Disable_then_Enable (f : FieldSetType) :
    (f.Disable.Enable).tagSet = f.tagSet \ {"disabled"} ∧
    "disabled" ∉ (f.Disable.Enable).tagSet ∧
    (∀ t, t ≠ "disabled" → (t ∈ (f.Disable.Enable).tagSet ↔ t ∈ f.tagSet)) ∧
    ("disabled" ∉ f.tagSet → f.Enable = f) := by
  have hset : (f.Disable.Enable).tagSet = f.tagSet \ {"disabled"} := by
    show ((f.tags.set "disabled" ()).delete "disabled").keys = f.tags.keys \ {"disabled"}
    rw [GoMap.keys_delete, GoMap.keys_set]
    ext q
    simp only [Set.mem_diff, Set.mem_insert_iff, Set.mem_singleton_iff]
    constructor
    · rintro ⟨h | h, hq⟩
      · exact absurd h hq
      · exact ⟨h, hq⟩
    · rintro ⟨h, hq⟩
      exact ⟨Or.inr h, hq⟩
  refine ⟨hset, ?_, ?_, ?_⟩
  · rw [hset]
    simp
  · intro t ht
    rw [hset]
    simp [ht]
  · intro h
    show { f with tags := f.tags.delete "disabled" } = f
    rw [GoMap.delete_absent f.tags "disabled" (GoMap.none_of_not_mem f.tags _ h)]

/-- C9, on an example: `FieldSet("f1").AddTag("checked")` has no "disabled" tag, and
`Enable()` leaves it as it is. -/
theorem Disable_then_Enable_witness :
    "disabled" ∉ ((FieldSet "f1" []).AddTag "checked").tagSet ∧
    ((FieldSet "f1" []).AddTag "checked").Enable = (FieldSet "f1" []).AddTag "checked" := by
  have hout : "disabled" ∉ ((FieldSet "f1" []).AddTag "checked").tagSet := by
    show ¬ (GoMap.has _ "disabled" = true)
    decide
  exact ⟨hout, (Disable_then_Enable ((FieldSet "f1" []).AddTag "checked")).2.2.2 hout⟩

/-- C10: after `FieldSet(name, ...)` and any sequence of calls of any methods (the
metadata mutators, `FieldSetFromInstance`, `Field`, `Fields`, `Name`, `Render`), `Name()`
returns `name`; and each metadata mutator returns the receiver with only its own
collection replaced: `class` for `AddClass`/`RemoveClass`, `tags` for
`AddTag`/`RemoveTag`/`Disable`/`Enable`, `css` for `AddCss`/`RemoveCss`, `params` for
`SetParam`, `id` for `SetId`; so none of them changes `fields` or `fieldMap`, and no
call at all writes `fieldMap`. -/
theorem Name_never_changes (name : String) (elems : List FieldInterface)
    (calls : List Call) :
    (run (FieldSet name elems) calls).Name = name ∧
    (∀ (f : FieldSetType) (c : String),
      f.AddClass c = { f with class_ := (f.AddClass c).class_ } ∧
      f.RemoveClass c = { f with class_ := (f.RemoveClass c).class_ }) ∧
    (∀ (f : FieldSetType) (t : String),
      f.AddTag t = { f with tags := (f.AddTag t).tags } ∧
      f.RemoveTag t = { f with tags := (f.RemoveTag t).tags }) ∧
    (∀ f : FieldSetType,
      f.Disable = { f with tags := f.Disable.tags } ∧
      f.Enable = { f with tags := f.Enable.tags }) ∧
    (∀ (f : FieldSetType) (k v : String),
      f.AddCss k v = { f with css := (f.AddCss k v).css } ∧
      f.RemoveCss k = { f with css := (f.RemoveCss k).css }) ∧
    (∀ (f : FieldSetType) (k v : String),
      f.SetParam k v = { f with params := (f.SetParam k v).params }) ∧
    (∀ (f : FieldSetType) (id : String), f.SetId id = { f with id := (f.SetId id).id }) ∧
    (∀ (f : FieldSetType) (c : Call), (Call.apply f c).fieldMap = f.fieldMap) :=
  ⟨run_name (FieldSet name elems) calls, fun _ _ => ⟨rfl, rfl⟩, fun _ _ => ⟨rfl, rfl⟩,
    fun _ => ⟨rfl, rfl⟩, fun _ _ _ => ⟨rfl, rfl⟩, fun _ _ _ => rfl, fun _ _ => rfl,
    Call.apply_fieldMap⟩

/-! ## Lemmas on the pointer receiver and on rendering -/

/-- A mutator call writes the object of its receiver, and nothing else. -/
theorem Mutator.call_store (h : Store) (p : Ptr) (m : Mutator) :
    (m.call h p).1 = h.write p (Call.apply (h p) m.toCall) := by
  cases m <;> rfl

/-- A mutator call returns its receiver. -/
theorem Mutator.call_pointer (h : Store) (p : Ptr) (m : Mutator) :
    (m.call h p).2 = p := by
  cases m <;> rfl

@[simp]
theorem Store.write_self (h : Store) (p : Ptr) (s : FieldSetType) :
    h.write p s p = s := by
  simp [Store.write]

/-- The outcome of `Render` in terms of its two collaborators. -/
theorem FieldSetType.Render_eq (env : TemplateEnv) (f : FieldSetType) :
    f.Render env =
      match env.ParseFiles (env.CreateUrl "templates/fieldset.html") with
      | Except.error err => Except.error (Panic.templateError err)
      | Except.ok t =>
        match t.Execute f.renderData with
        | (_, some err) => Except.error (Panic.templateError err)
        | (out, none) => Except.ok out := rfl

/-- C11: each of the ten fluent mutators, called on the receiver `p`, returns `p` itself,
and the object at `p` is then the receiver in its post-mutation state (no other object is
written); so the chained call `f.M1(..).M2(..)` is the same as `f.M1(..)` followed by
`f.M2(..)`, and leaves at `p` the state after both mutations. -/
theorem fluent_mutators_return_receiver (h : Store) (p : Ptr) (m1 m2 : Mutator) :
    (m1.call h p).2 = p ∧
    (m1.call h p).1 = h.write p (Call.apply (h p) m1.toCall) ∧
    (m1.call h p).1 p = Call.apply (h p) m1.toCall ∧
    Mutator.chained h p m1 m2 = Mutator.inSequence h p m1 m2 ∧
    (Mutator.chained h p m1 m2).2 = p ∧
    (Mutator.chained h p m1 m2).1 p
      = Call.apply (Call.apply (h p) m1.toCall) m2.toCall := by
  have hc : Mutator.chained h p m1 m2 = Mutator.inSequence h p m1 m2 := by
    simp only [Mutator.chained, Mutator.inSequence, Mutator.call_pointer]
  refine ⟨Mutator.call_pointer h p m1, Mutator.call_store h p m1, ?_, hc, ?_, ?_⟩
  · rw [Mutator.call_store, Store.write_self]
  · simp only [Mutator.chained, Mutator.call_pointer]
  · simp only [Mutator.chained, Mutator.call_pointer, Mutator.call_store,
      Store.write_self]

/-- The buffer `Render` allocates holds, after the execution, exactly the text the
template wrote, whatever buffers were in memory before. -/
theorem World.bufferString_fresh (w : World) (text : String) :
    ((w.NewBufferString "").1.writeString (w.NewBufferString "").2 text).bufferString
      (w.NewBufferString "").2 = text := by
  simp [World.NewBufferString, World.writeString, World.bufferString]

/-- `Render` writes no fieldset object. -/
theorem World.Render_store (env : TemplateEnv) (w : World) (p : Ptr) :
    (World.Render env w p).1.store = w.store := by
  unfold World.Render
  cases env.ParseFiles (env.CreateUrl "templates/fieldset.html") with
  | error err => rfl
  | ok t =>
    simp only
    split <;> rfl

/-- `Render` leaves the buffers that were in memory as they were. -/
theorem World.Render_buffers (env : TemplateEnv) (w : World) (p : Ptr) :
    (World.Render env w p).1.buffers.take w.buffers.length = w.buffers := by
  unfold World.Render
  cases env.ParseFiles (env.CreateUrl "templates/fieldset.html") with
  | error err => simp [World.NewBufferString]
  | ok t =>
    simp only
    split <;> simp [World.NewBufferString, World.Execute, World.writeString]

/-- What `Render` returns in a world is the outcome of loading the template and executing
it on the data context of the receiver, whatever buffers are in memory. -/
theorem World.Render_result (env : TemplateEnv) (w : World) (p : Ptr) :
    (World.Render env w p).2 = (w.store p).Render env := by
  unfold World.Render
  rw [FieldSetType.Render_eq]
  cases env.ParseFiles (env.CreateUrl "templates/fieldset.html") with
  | error err => rfl
  | ok t =>
    have hdata : ((w.NewBufferString "").1.store p).renderData = (w.store p).renderData :=
      rfl
    simp only [hdata]
    cases hx : t.Execute (w.store p).renderData with
    | mk text r =>
      cases r with
      | some err => simp [World.Execute, hx]
      | none =>
        have hb := World.bufferString_fresh w text
        simp [World.Execute, hx, hb]

/-- C12: for a fixed template resolver, `Render()` writes no fieldset object, so every
component of the fieldset is as before, and it leaves the buffers already in memory as
they were; a second `Render()`, run in the world the first one left, returns the same
result as the first; the result is the outcome of executing the loaded template on the
data context of the receiver, and it is the same whatever buffers are in memory. -/
theorem Render_no_hidden_state (env : TemplateEnv) (w : World) (p : Ptr) :
    (World.Render env w p).1.store = w.store ∧
    (World.Render env w p).1.store p = w.store p ∧
    (World.Render env w p).1.buffers.take w.buffers.length = w.buffers ∧
    (World.Render env (World.Render env w p).1 p).2 = (World.Render env w p).2 ∧
    (World.Render env (World.Render env w p).1 p).1.store p = w.store p ∧
    (World.Render env w p).2 = (w.store p).Render env ∧
    (∀ bufs : List String,
      (World.Render env { w with buffers := bufs } p).2 = (World.Render env w p).2) := by
  have hs := World.Render_store env w p
  refine ⟨hs, by rw [hs], World.Render_buffers env w p, ?_, ?_, World.Render_result env w p,
    ?_⟩
  · rw [World.Render_result, World.Render_result, hs]
  · rw [World.Render_store, hs]
  · intro bufs
    rw [World.Render_result, World.Render_result]

/-- C13: the data context of `Render()` binds "fields", "classes", "tags", "css", "id" and
"params" to the field sequence, class set, tag set, css mapping, identifier and params
mapping of the fieldset; these six are its only keys (so "name" is not one); and this map
is what `Render()` executes the loaded template on. -/
theorem renderData_has_six_entries (f : FieldSetType) :
    f.renderData.get "fields" = some (Value.fieldSeq f.fields) ∧
    f.renderData.get "classes" = some (Value.stringSet f.class_) ∧
    f.renderData.get "tags" = some (Value.stringSet f.tags) ∧
    f.renderData.get "css" = some (Value.stringMap f.css) ∧
    f.renderData.get "id" = some (Value.str f.id) ∧
    f.renderData.get "params" = some (Value.stringMap f.params) ∧
    f.renderData.keys = {"fields", "classes", "tags", "css", "id", "params"} ∧
    f.renderData.get "name" = none ∧
    (∀ (url : String → String) (t : Template),
      f.Render { CreateUrl := url, ParseFiles := fun _ => Except.ok t } =
        match t.Execute f.renderData with
        | (_, some err) => Except.error (Panic.templateError err)
        | (out, none) => Except.ok out) := by
  refine ⟨?_, ?_, ?_, ?_, ?_, ?_, ?_, ?_, fun _ _ => rfl⟩
  · simp [FieldSetType.renderData, GoMap.set_apply]
  · simp [FieldSetType.renderData, GoMap.set_apply]
  · simp [FieldSetType.renderData, GoMap.set_apply]
  · simp [FieldSetType.renderData, GoMap.set_apply]
  · simp [FieldSetType.renderData, GoMap.set_apply]
  · simp [FieldSetType.renderData, GoMap.set_apply]
  · ext q
    rw [GoMap.mem_keys]
    simp only [FieldSetType.renderData, GoMap.set_apply, GoMap.empty_apply,
      Set.mem_insert_iff, Set.mem_singleton_iff]
    split_ifs <;> simp_all
  · simp [FieldSetType.renderData, GoMap.set_apply]

/-- C14: `Render()` panics iff loading the template fails or executing it on the data
context fails, and then with the underlying error and without any markup, even when the
execution had written part of its text; when both succeed, it returns exactly the text
the execution wrote. -/
theorem Render_fails_iff_template_fails (env : TemplateEnv) (f : FieldSetType) :
    ((∃ e, f.Render env = Except.error e) ↔
      (∃ err, env.ParseFiles (env.CreateUrl "templates/fieldset.html")
        = Except.error err) ∨
      (∃ t out err, env.ParseFiles (env.CreateUrl "templates/fieldset.html")
        = Except.ok t ∧ t.Execute f.renderData = (out, some err))) ∧
    (∀ err, env.ParseFiles (env.CreateUrl "templates/fieldset.html") = Except.error err →
      f.Render env = Except.error (Panic.templateError err)) ∧
    (∀ t out err, env.ParseFiles (env.CreateUrl "templates/fieldset.html") = Except.ok t →
      t.Execute f.renderData = (out, some err) →
      f.Render env = Except.error (Panic.templateError err)) ∧
    (∀ t out, env.ParseFiles (env.CreateUrl "templates/fieldset.html") = Except.ok t →
      t.Execute f.renderData = (out, none) → f.Render env = Except.ok out) := by
  have hparse : ∀ err,
      env.ParseFiles (env.CreateUrl "templates/fieldset.html") = Except.error err →
      f.Render env = Except.error (Panic.templateError err) := by
    intro err h
    rw [FieldSetType.Render_eq, h]
  have hexec : ∀ t out err,
      env.ParseFiles (env.CreateUrl "templates/fieldset.html") = Except.ok t →
      t.Execute f.renderData = (out, some err) →
      f.Render env = Except.error (Panic.templateError err) := by
    intro t out err h1 h2
    rw [FieldSetType.Render_eq, h1]
    simp only [h2]
  have hok : ∀ t out,
      env.ParseFiles (env.CreateUrl "templates/fieldset.html") = Except.ok t →
      t.Execute f.renderData = (out, none) → f.Render env = Except.ok out := by
    intro t out h1 h2
    rw [FieldSetType.Render_eq, h1]
    simp only [h2]
  refine ⟨⟨?_, ?_⟩, hparse, hexec, hok⟩
  · rintro ⟨e, he⟩
    cases h1 : env.ParseFiles (env.CreateUrl "templates/fieldset.html") with
    | error err => exact Or.inl ⟨err, rfl⟩
    | ok t =>
      cases h2 : t.Execute f.renderData with
      | mk out r =>
        cases r with
        | none =>
          rw [hok t out h1 h2] at he
          cases he
        | some err => exact Or.inr ⟨t, out, err, rfl, h2⟩
  · rintro (⟨err, h⟩ | ⟨t, out, err, h1, h2⟩)
    · exact ⟨_, hparse err h⟩
    · exact ⟨_, hexec t out err h1 h2⟩

/-- C14, on examples: with the template file missing `Render()` panics with the loader's
error; with a template that fails after writing "<fieldset" it panics with the execution
error and returns no text; with a working template it returns the text written. -/
theorem Render_fails_iff_template_fails_witness :
    (envMissing.ParseFiles (envMissing.CreateUrl "templates/fieldset.html")
      = Except.error "open templates/fieldset.html" ∧
      ((FieldSet "f1" []).SetId "group1").Render envMissing
        = Except.error (Panic.templateError "open templates/fieldset.html")) ∧
    (failingTemplate.Execute ((FieldSet "f1" []).SetId "group1").renderData
      = ("<fieldset", some "execution failed") ∧
      ((FieldSet "f1" []).SetId "group1").Render envFailing
        = Except.error (Panic.templateError "execution failed")) ∧
    (idTemplate.Execute ((FieldSet "f1" []).SetId "group1").renderData
      = ("<fieldset id=group1>", none) ∧
      ((FieldSet "f1" []).SetId "group1").Render envOk
        = Except.ok "<fieldset id=group1>") := by
  have h1 : envMissing.ParseFiles (envMissing.CreateUrl "templates/fieldset.html")
      = Except.error "open templates/fieldset.html" := by
    show Except.error ("open " ++ "templates/fieldset.html") = _
    exact congrArg Except.error (by decide)
  have h2 : failingTemplate.Execute ((FieldSet "f1" []).SetId "group1").renderData
      = ("<fieldset", some "execution failed") := rfl
  have h3 : idTemplate.Execute ((FieldSet "f1" []).SetId "group1").renderData
      = ("<fieldset id=group1>", none) := by
    simp [idTemplate, FieldSetType.renderData, GoMap.set_apply, FieldSetType.SetId]
  exact ⟨⟨h1, (Render_fails_iff_template_fails envMissing
      ((FieldSet "f1" []).SetId "group1")).2.1 _ h1⟩,
    ⟨h2, (Render_fails_iff_template_fails envFailing
      ((FieldSet "f1" []).SetId "group1")).2.2.1 failingTemplate _ _ rfl h2⟩,
    ⟨h3, (Render_fails_iff_template_fails envOk
      ((FieldSet "f1" []).SetId "group1")).2.2.2 idTemplate _ rfl h3⟩⟩

/-! ## Lemmas on the struct with maps that may be nil -/

/-- On an allocated map the loop of the constructor never panics, and computes what
`FieldSet.loop` computes. -/
theorem RawFieldSet.loop_allocated (elems : List FieldInterface) (i : Nat) (m : GoMap Nat) :
    RawFieldSet.loop elems i (some m) = Except.ok (some (FieldSet.loop elems i m)) := by
  induction elems generalizing i m with
  | nil => rfl
  | cons x rest ih =>
    simp only [RawFieldSet.loop, GoMap.assignNilable, FieldSet.loop]
    exact ih (i + 1) _

/-- The constructor never panics and returns a struct whose maps are all allocated. -/
theorem RawFieldSet_allocated (name : String) (elems : List FieldInterface) :
    RawFieldSet name elems = Except.ok (FieldSet name elems).toRaw := by
  simp only [RawFieldSet, RawFieldSet.loop_allocated]
  rfl

/-- A mutator call on a struct with allocated maps does not panic. -/
theorem Mutator.rawCall_toRaw (f : FieldSetType) (m : Mutator) :
    m.rawCall f.toRaw = Except.ok (Call.apply f m.toCall).toRaw := by
  cases m <;> rfl

/-- A step on a struct with allocated maps does not panic. -/
theorem Step.rawCall_step_toRaw (f : FieldSetType) (st : Step) :
    st.rawCall f.toRaw = Except.ok (Call.apply f st.toCall).toRaw := by
  cases st with
  | append elem => rfl
  | mutate m => exact Mutator.rawCall_toRaw f m

/-- A sequence of steps on a struct with allocated maps does not panic. -/
theorem rawRun_toRaw (f : FieldSetType) (steps : List Step) :
    rawRun f.toRaw steps = Except.ok (run f (steps.map Step.toCall)).toRaw := by
  induction steps generalizing f with
  | nil => rfl
  | cons st rest ih =>
    rw [rawRun, Step.rawCall_step_toRaw]
    simp only [List.map_cons, run_cons]
    exact ih _

/-- On the zero value of the struct, whose maps are nil, `AddClass` panics. -/
theorem RawFieldSetType.zero_AddClass (c : String) :
    RawFieldSetType.zero.AddClass c = Except.error Panic.assignNilMap := rfl

/-- C15: the constructor returns a fieldset whose maps are allocated, every sequence of
appends and mutator calls on it runs without a panic, and in each state so reached each of
the ten mutators, with any string arguments, returns without a panic; there `RemoveClass`,
`RemoveTag` and `RemoveCss` of an absent key return the state as it was. -/
theorem mutators_never_fail (name : String) (elems : List FieldInterface)
    (steps : List Step) (m : Mutator) (k : String) :
    RawFieldSet name elems = Except.ok (FieldSet name elems).toRaw ∧
    rawRun (FieldSet name elems).toRaw steps
      = Except.ok (run (FieldSet name elems) (steps.map Step.toCall)).toRaw ∧
    m.rawCall (run (FieldSet name elems) (steps.map Step.toCall)).toRaw
      = Except.ok
          (Call.apply (run (FieldSet name elems) (steps.map Step.toCall)) m.toCall).toRaw ∧
    (k ∉ (run (FieldSet name elems) (steps.map Step.toCall)).classSet →
      (run (FieldSet name elems) (steps.map Step.toCall)).toRaw.RemoveClass k
        = Except.ok (run (FieldSet name elems) (steps.map Step.toCall)).toRaw) ∧
    (k ∉ (run (FieldSet name elems) (steps.map Step.toCall)).tagSet →
      (run (FieldSet name elems) (steps.map Step.toCall)).toRaw.RemoveTag k
        = Except.ok (run (FieldSet name elems) (steps.map Step.toCall)).toRaw) ∧
    (k ∉ (run (FieldSet name elems) (steps.map Step.toCall)).css.keys →
      (run (FieldSet name elems) (steps.map Step.toCall)).toRaw.RemoveCss k
        = Except.ok (run (FieldSet name elems) (steps.map Step.toCall)).toRaw) := by
  have hrun := rawRun_toRaw (FieldSet name elems) steps
  generalize run (FieldSet name elems) (steps.map Step.toCall) = s at hrun ⊢
  refine ⟨RawFieldSet_allocated name elems, hrun, Mutator.rawCall_toRaw s m, ?_, ?_, ?_⟩
  · intro h
    have e : s.RemoveClass k = s := by
      show { s with class_ := s.class_.delete k } = s
      rw [GoMap.delete_absent s.class_ k (GoMap.none_of_not_mem s.class_ k h)]
    exact (Mutator.rawCall_toRaw s (Mutator.RemoveClass k)).trans
      (congrArg (fun g => Except.ok (FieldSetType.toRaw g)) e)
  · intro h
    have e : s.RemoveTag k = s := by
      show { s with tags := s.tags.delete k } = s
      rw [GoMap.delete_absent s.tags k (GoMap.none_of_not_mem s.tags k h)]
    exact (Mutator.rawCall_toRaw s (Mutator.RemoveTag k)).trans
      (congrArg (fun g => Except.ok (FieldSetType.toRaw g)) e)
  · intro h
    have e : s.RemoveCss k = s := by
      show { s with css := s.css.delete k } = s
      rw [GoMap.delete_absent s.css k (GoMap.none_of_not_mem s.css k h)]
    exact (Mutator.rawCall_toRaw s (Mutator.RemoveCss k)).trans
      (congrArg (fun g => Except.ok (FieldSetType.toRaw g)) e)

/-- C15, on an example: after `FieldSet("f1", fieldA)`, an append and `AddClass("")`, the
class "row", the tag "disabled" and the css key "width" are absent, and removing them
returns the state as it was, without a panic. -/
theorem mutators_never_fail_witness :
    ("row" ∉ (run (FieldSet "f1" [fieldA])
        ([Step.append fieldB, Step.mutate (Mutator.AddClass "")].map
          Step.toCall)).classSet ∧
      (run (FieldSet "f1" [fieldA])
        ([Step.append fieldB, Step.mutate (Mutator.AddClass "")].map
          Step.toCall)).toRaw.RemoveClass "row"
        = Except.ok (run (FieldSet "f1" [fieldA])
          ([Step.append fieldB, Step.mutate (Mutator.AddClass "")].map
            Step.toCall)).toRaw) ∧
    ("disabled" ∉ (run (FieldSet "f1" [fieldA])
        ([Step.append fieldB, Step.mutate (Mutator.AddClass "")].map
          Step.toCall)).tagSet ∧
      (run (FieldSet "f1" [fieldA])
        ([Step.append fieldB, Step.mutate (Mutator.AddClass "")].map
          Step.toCall)).toRaw.RemoveTag "disabled"
        = Except.ok (run (FieldSet "f1" [fieldA])
          ([Step.append fieldB, Step.mutate (Mutator.AddClass "")].map
            Step.toCall)).toRaw) ∧
    ("width" ∉ (run (FieldSet "f1" [fieldA])
        ([Step.append fieldB, Step.mutate (Mutator.AddClass "")].map
          Step.toCall)).css.keys ∧
      (run (FieldSet "f1" [fieldA])
        ([Step.append fieldB, Step.mutate (Mutator.AddClass "")].map
          Step.toCall)).toRaw.RemoveCss "width"
        = Except.ok (run (FieldSet "f1" [fieldA])
          ([Step.append fieldB, Step.mutate (Mutator.AddClass "")].map
            Step.toCall)).toRaw) := by
  have h1 : "row" ∉ (run (FieldSet "f1" [fieldA])
      ([Step.append fieldB, Step.mutate (Mutator.AddClass "")].map
        Step.toCall)).classSet := by
    show ¬ (GoMap.has _ "row" = true)
    decide
  have h2 : "disabled" ∉ (run (FieldSet "f1" [fieldA])
      ([Step.append fieldB, Step.mutate (Mutator.AddClass "")].map
        Step.toCall)).tagSet := by
    show ¬ (GoMap.has _ "disabled" = true)
    decide
  have h3 : "width" ∉ (run (FieldSet "f1" [fieldA])
      ([Step.append fieldB, Step.mutate (Mutator.AddClass "")].map
        Step.toCall)).css.keys := by
    show ¬ (GoMap.has _ "width" = true)
    decide
  have h := mutators_never_fail "f1" [fieldA]
    [Step.append fieldB, Step.mutate (Mutator.AddClass "")] Mutator.Disable
  exact ⟨⟨h1, (h "row").2.2.2.1 h1⟩, ⟨h2, (h "disabled").2.2.2.2.1 h2⟩,
    ⟨h3, (h "width").2.2.2.2.2 h3⟩⟩

/-! ## Lemmas on duplicate names and on lookups after construction -/

/-- An element at some position carries its name into the list of names. -/
theorem name_mem_of_getElem? (elems : List FieldInterface) (k : Nat) (e : FieldInterface)
    (h : elems[k]? = some e) : e.Name ∈ elems.map FieldInterface.Name :=
  List.mem_map.mpr ⟨e, List.getElem?_mem h, rfl⟩

/-- Every entry the loop leaves in the map is an entry of the starting map for a name no
element carries, or the last position (counted from `i`) of an element with that name. -/
theorem FieldSet.loop_last (elems : List FieldInterface) (i : Nat) (m : GoMap Nat)
    (q : String) (j : Nat) (h : FieldSet.loop elems i m q = some j) :
    (m q = some j ∧ q ∉ elems.map FieldInterface.Name) ∨
    ∃ k e, j = i + k ∧ elems[k]? = some e ∧ e.Name = q ∧
      ∀ k2 e2, elems[k2]? = some e2 → e2.Name = q → k2 ≤ k := by
  induction elems generalizing i m with
  | nil => exact Or.inl ⟨h, by simp⟩
  | cons x rest ih =>
    rw [FieldSet.loop] at h
    rcases ih (i + 1) _ h with ⟨h1, hnot⟩ | ⟨k, e, hj, hk, he, hmax⟩
    · by_cases hq : q = x.Name
      · subst hq
        rw [GoMap.set_self] at h1
        refine Or.inr ⟨0, x, ?_, by simp, rfl, ?_⟩
        · simpa using (Option.some.inj h1).symm
        · intro k2 e2 hk2 he2
          cases k2 with
          | zero => exact Nat.le_refl 0
          | succ n =>
            simp only [List.getElem?_cons_succ] at hk2
            exact absurd (he2 ▸ name_mem_of_getElem? rest n e2 hk2) hnot
      · rw [GoMap.set_of_ne _ _ _ _ hq] at h1
        refine Or.inl ⟨h1, ?_⟩
        simp only [List.map_cons, List.mem_cons, not_or]
        exact ⟨hq, hnot⟩
    · refine Or.inr ⟨k + 1, e, by omega, by simpa using hk, he, ?_⟩
      intro k2 e2 hk2 he2
      cases k2 with
      | zero => omega
      | succ n =>
        simp only [List.getElem?_cons_succ] at hk2
        have := hmax n e2 hk2 he2
        omega

/-- C16: when a name `n` is carried by input fields of `FieldSet(name, fields...)`, also by
several, `fieldMap[n]` is the largest index `i` with `fields[i].Name() = n`, `Field(n)`
returns the field at that index, the last one of that name, and `Fields()` is the input
list itself, duplicates included, in the same order and of the same length. -/
theorem duplicate_name_last_wins (name : String) (elems : List FieldInterface) (n : String)
    (hn : n ∈ elems.map FieldInterface.Name) :
    ∃ i, ∃ hi : i < elems.length,
      (FieldSet name elems).fieldMap.get n = some i ∧
      (elems.get ⟨i, hi⟩).Name = n ∧
      (∀ j, ∀ hj : j < elems.length, (elems.get ⟨j, hj⟩).Name = n → j ≤ i) ∧
      (FieldSet name elems).Field n = Except.ok (elems.get ⟨i, hi⟩) ∧
      (FieldSet name elems).Fields = elems ∧
      (FieldSet name elems).Fields.length = elems.length := by
  obtain ⟨j, hj⟩ := FieldSet.loop_of_mem elems 0 GoMap.empty n hn
  rcases FieldSet.loop_last elems 0 GoMap.empty n j hj with ⟨_, hnot⟩ | ⟨k, e, hjk, hk, he, hmax⟩
  · exact absurd hn hnot
  · have hjk2 : j = k := by omega
    subst hjk2
    obtain ⟨hlt, hget⟩ := List.getElem?_eq_some.mp hk
    refine ⟨j, hlt, hj, ?_, ?_, ?_, rfl, rfl⟩
    · rw [List.get_eq_getElem, hget]
      exact he
    · intro j2 hj2 hname
      exact hmax j2 (elems.get ⟨j2, hj2⟩) (List.getElem?_eq_getElem hj2) hname
    · rw [List.get_eq_getElem, hget]
      have hm : (FieldSet name elems).fieldMap.get n = some j := hj
      have hf : (FieldSet name elems).fields[j]? = some e := hk
      simp only [FieldSetType.Field, hm, hf]

/-- C16, on an example: in `FieldSet("f1", fieldA, fieldB, fieldC)` both `fieldA` and
`fieldC` are named "x"; `fieldMap["x"]` is `2` and `Field("x")` returns `fieldC`. -/
theorem duplicate_name_last_wins_witness :
    "x" ∈ [fieldA, fieldB, fieldC].map FieldInterface.Name ∧
    (FieldSet "f1" [fieldA, fieldB, fieldC]).fieldMap.get "x" = some 2 ∧
    (FieldSet "f1" [fieldA, fieldB, fieldC]).Field "x" = Except.ok fieldC ∧
    ∃ i, ∃ hi : i < [fieldA, fieldB, fieldC].length,
      (FieldSet "f1" [fieldA, fieldB, fieldC]).fieldMap.get "x" = some i ∧
      ([fieldA, fieldB, fieldC].get ⟨i, hi⟩).Name = "x" ∧
      (∀ j, ∀ hj : j < [fieldA, fieldB, fieldC].length,
        ([fieldA, fieldB, fieldC].get ⟨j, hj⟩).Name = "x" → j ≤ i) ∧
      (FieldSet "f1" [fieldA, fieldB, fieldC]).Field "x"
        = Except.ok ([fieldA, fieldB, fieldC].get ⟨i, hi⟩) ∧
      (FieldSet "f1" [fieldA, fieldB, fieldC]).Fields = [fieldA, fieldB, fieldC] ∧
      (FieldSet "f1" [fieldA, fieldB, fieldC]).Fields.length
        = [fieldA, fieldB, fieldC].length :=
  ⟨by decide, by decide, rfl,
    duplicate_name_last_wins "f1" [fieldA, fieldB, fieldC] "x" (by decide)⟩

/-- C17: a fieldset just built by `FieldSet(name, fields...)` has an empty class set, an
empty tag set, an empty css mapping, an empty params mapping and the empty string as id;
the keys of its `fieldMap` are exactly the names of the input fields, so there are none
when no fields are given. -/
theorem fresh_FieldSet_metadata_empty (name : String) (elems : List FieldInterface) :
    (FieldSet name elems).class_ = GoMap.empty ∧
    (FieldSet name elems).tags = GoMap.empty ∧
    (FieldSet name elems).css = GoMap.empty ∧
    (FieldSet name elems).params = GoMap.empty ∧
    (FieldSet name elems).id = "" ∧
    (FieldSet name elems).classSet = ∅ ∧
    (FieldSet name elems).tagSet = ∅ ∧
    (FieldSet name elems).css.keys = ∅ ∧
    (FieldSet name elems).params.keys = ∅ ∧
    (∀ n, n ∈ (FieldSet name elems).fieldMap.keys ↔ n ∈ elems.map FieldInterface.Name) ∧
    (FieldSet name []).fieldMap = GoMap.empty := by
  have hempty : ∀ V : Type, (GoMap.empty : GoMap V).keys = ∅ := by
    intro V
    ext q
    simp [GoMap.mem_keys]
  refine ⟨rfl, rfl, rfl, rfl, rfl, hempty Unit, hempty Unit, hempty String,
    hempty String, ?_, rfl⟩
  intro n
  rw [GoMap.mem_keys]
  show FieldSet.loop elems 0 GoMap.empty n ≠ none ↔ _
  constructor
  · intro h
    by_contra hn
    exact h (FieldSet.loop_of_not_mem elems 0 GoMap.empty n hn)
  · intro hn
    obtain ⟨j, hj⟩ := FieldSet.loop_of_mem elems 0 GoMap.empty n hn
    rw [hj]
    simp

/-- C18: `Disable()` is `AddTag("disabled")` and `Enable()` is `RemoveTag("disabled")`: on
every store and receiver they give the same store and the same returned pointer, on every
state the same state (also when the maps may be nil, panic included), and they replace
no component other than `tags`. -/
theorem Disable_Enable_are_tag_calls (h : Store) (p : Ptr) (f : FieldSetType)
    (r : RawFieldSetType) :
    h.Disable p = h.AddTag p "disabled" ∧
    h.Enable p = h.RemoveTag p "disabled" ∧
    f.Disable = f.AddTag "disabled" ∧
    f.Enable = f.RemoveTag "disabled" ∧
    r.Disable = r.AddTag "disabled" ∧
    r.Enable = r.RemoveTag "disabled" ∧
    f.Disable = { f with tags := f.Disable.tags } ∧
    f.Enable = { f with tags := f.Enable.tags } :=
  ⟨rfl, rfl, rfl, rfl, rfl, rfl, rfl, rfl⟩

/-- After any sequence of calls, `Field` returns what it returned right after
construction. -/
theorem Field_after_calls (name : String) (elems : List FieldInterface)
    (calls : List Call) (q : String) :
    (run (FieldSet name elems) calls).Field q = (FieldSet name elems).Field q := by
  have hm : (run (FieldSet name elems) calls).fieldMap.get q
      = (FieldSet name elems).fieldMap.get q := by
    rw [GoMap.get_eq, GoMap.get_eq, run_fieldMap]
  cases hq : (FieldSet name elems).fieldMap.get q with
  | none =>
    rw [hq] at hm
    simp only [FieldSetType.Field, hm, hq]
  | some i =>
    rw [hq] at hm
    have hloop : FieldSet.loop elems 0 GoMap.empty q = some i := hq
    have hlt : i < elems.length := by
      rcases FieldSet.loop_entry elems 0 GoMap.empty q i hloop with h0 | ⟨k, e, hj, hk, _⟩
      · simp at h0
      · have hik : i = k := by omega
        subst hik
        exact (List.getElem?_eq_some.mp hk).1
    have hf : (run (FieldSet name elems) calls).fields[i]?
        = (FieldSet name elems).fields[i]? := by
      rw [run_fields]
      exact List.getElem?_append_left hlt
    have hsome : (FieldSet name elems).fields[i]? = some elems[i] :=
      List.getElem?_eq_getElem hlt
    simp only [FieldSetType.Field, hm, hq, hf, hsome]

/-- C19: after `FieldSet(name, fields...)` and any sequence of calls, `Field(q)` returns
what it returned right after construction, for every `q`; a field `a` appended by
`FieldSetFromInstance` is in `Fields()`, the lookup of its name is the one of construction
(a field of that name given at construction is not replaced), and when its name is new
`Field` of its name returns the empty field. -/
theorem lookup_fixed_at_construction (name : String) (elems : List FieldInterface)
    (pre post : List Call) (a : FieldInterface) (q : String) :
    (run (FieldSet name elems) pre).Field q = (FieldSet name elems).Field q ∧
    (run (FieldSet name elems) (pre ++ Call.FieldSetFromInstance a :: post)).Field q
      = (FieldSet name elems).Field q ∧
    (run (FieldSet name elems) (pre ++ Call.FieldSetFromInstance a :: post)).Field a.Name
      = (FieldSet name elems).Field a.Name ∧
    a ∈ (run (FieldSet name elems) (pre ++ Call.FieldSetFromInstance a :: post)).Fields ∧
    (a.Name ∉ elems.map FieldInterface.Name →
      (run (FieldSet name elems) (pre ++ Call.FieldSetFromInstance a :: post)).Field a.Name
        = Except.ok emptyField) := by
  refine ⟨Field_after_calls name elems pre q, Field_after_calls name elems _ q,
    Field_after_calls name elems _ a.Name, ?_, ?_⟩
  · show a ∈ (run (FieldSet name elems) (pre ++ Call.FieldSetFromInstance a :: post)).fields
    rw [run_fields]
    simp [Call.appended, FieldSet]
  · intro hnew
    rw [Field_after_calls]
    have hnone : (FieldSet name elems).fieldMap.get a.Name = none :=
      FieldSet.loop_of_not_mem elems 0 GoMap.empty a.Name hnew
    simp only [FieldSetType.Field, hnone]

/-- C19, on an example: after `FieldSet("f1", fieldA)`, the append of `fieldB`, whose name
"y" is new, and `AddClass("row")`, `Field("y")` returns the empty field; and after the
append of `fieldC`, a second field named "x", `Field("x")` still returns `fieldA`. -/
theorem lookup_fixed_at_construction_witness :
    (fieldB.Name ∉ [fieldA].map FieldInterface.Name ∧
      (run (FieldSet "f1" [fieldA])
        ([] ++ Call.FieldSetFromInstance fieldB :: [Call.AddClass "row"])).Field fieldB.Name
        = Except.ok emptyField) ∧
    (run (FieldSet "f1" [fieldA])
      ([] ++ Call.FieldSetFromInstance fieldC :: [Call.AddClass "row"])).Field "x"
      = Except.ok fieldA :=
  ⟨⟨by decide, (lookup_fixed_at_construction "f1" [fieldA] []
      [Call.AddClass "row"] fieldB "x").2.2.2.2 (by decide)⟩, rfl⟩

end FormIt
